import Mathlib

/-!
# envmanager: a shallow embedding of `envmanager.go`

Go strings are modelled as lists of characters (`Str`).  The package talks to
the outside world through the process environment, the file system and child
processes; these are modelled by an explicit state `Sys` that every operation
threads, and by a `Host` record that says how a child process, the search-path
lookup, `runtime.Caller` and the `path/filepath` functions answer.
-/

namespace EnvManager

/-- Go `string`, as the list of its characters. -/
abbrev Str := List Char

/-! ## Constants of `envmanager.go` (lines 13-20) -/

def envLoaderName : Str := "aspnmy_envloader".toList
def installedPath : Str := "/usr/local/bin/aspnmy_envloader".toList
def localPath : Str := "env_loader/aspnmy_envloader".toList
def testEnvKey : Str := "testenv".toList
def testEnvValue : Str := "test_value_123".toList
def envLoaderDirKey : Str := "aspnmy_envloaderDir".toList

/-- The names of the two environment variables the package reads by literal:
`"PATH"` (lines 68, 71) and `"ollama_scannerBaseDir"` (lines 168, 250). -/
def pathVar : Str := "PATH".toList
def baseDirVar : Str := "ollama_scannerBaseDir".toList

/-- The other string literals of the package: the helper commands `"ver"`
(lines 24, 39) and `"reload"` (line 152), the shell `"bash"` (lines 114, 157),
the script `"env_loader/update.sh"` (line 112), the arguments of the
re-sourcing shell (line 157) and the file name `".env"` (lines 169, 251). -/
def verArg : Str := "ver".toList
def reloadArg : Str := "reload".toList
def bashName : Str := "bash".toList
def updateScriptPath : Str := "env_loader/update.sh".toList
def sourceArgs : List Str := ["-c".toList, "source ~/.bashrc".toList]
def envFileName : Str := ".env".toList

/-! ## The `strings` functions the package uses -/

/-- Go `strings.HasPrefix(s, p)`. -/
def startsWith (s p : Str) : Bool := p.isPrefixOf s

/-- Go `strings.Contains(s, sub)`: `sub` occurs at some position of `s`. -/
def contains (s sub : Str) : Bool := s.tails.any (fun t => sub.isPrefixOf t)

/-- Go `strings.Split(s, "\n")`: the pieces between newlines; never empty. -/
def splitLines : Str → List Str
  | [] => [[]]
  | c :: cs =>
    if c = '\n' then [] :: splitLines cs
    else match splitLines cs with
      | [] => [[c]]
      | l :: ls => (c :: l) :: ls

/-- Go `strings.Join(lines, "\n")`. -/
def joinLines : List Str → Str
  | [] => []
  | [l] => l
  | l :: l2 :: ls => l ++ '\n' :: joinLines (l2 :: ls)

/-- Go `fmt.Sprintf("%s=%s", key, value)`. -/
def assignment (key value : Str) : Str := key ++ '=' :: value

/-! ## The line filter shared by `UpdateEnvironmentVariable` and
`RemoveEnvironmentVariable` (lines 183-191 and 264-272) -/

/-- The loop `for _, line := range lines`: a line with prefix `key=` sets
`found` and is skipped, any other non-empty line is appended to `newLines`.
Returns `(newLines, found)`. -/
def scanLines (key : Str) : List Str → List Str × Bool
  | [] => ([], false)
  | line :: rest =>
    if startsWith line (key ++ ['=']) then ((scanLines key rest).1, true)
    else if line ≠ [] then (line :: (scanLines key rest).1, (scanLines key rest).2)
    else scanLines key rest

/-- The bytes `UpdateEnvironmentVariable(key, value)` hands to `os.WriteFile`
(lines 178-197) when the file held `content`. -/
def updatedContent (key value content : Str) : Str :=
  joinLines ((scanLines key (splitLines content)).1 ++ [assignment key value])

/-- The bytes `RemoveEnvironmentVariable(key)` hands to `os.WriteFile`
(lines 260-280) when the file held `content`. -/
def removedContent (key content : Str) : Str :=
  joinLines (scanLines key (splitLines content)).1

/-! ## The outside world -/

/-- What `cmd.Run()` / `cmd.Output()` observe of a child process: it could not
be started, or it ran and exited with a status and some standard output. -/
inductive ExecResult where
  | startFailed
  | exited (code : Nat) (stdout : Str)
deriving DecidableEq

/-- Go `err == nil` for `cmd.Run()` and `cmd.Output()`: started and exited 0. -/
def ExecResult.succeeded : ExecResult → Bool
  | .exited 0 _ => true
  | _ => false

/-- The bytes `cmd.Output()` returns. -/
def ExecResult.output : ExecResult → Str
  | .exited _ out => out
  | .startFailed => []

/-- The state the package reads and writes: the process environment (first
binding of a key wins), the regular files with their contents (first entry of a
path wins), the paths that cannot be opened for writing, and the command lines
of the child processes spawned so far, oldest first. -/
structure Sys where
  env : List (Str × Str)
  files : List (Str × Str)
  locked : List Str
  spawned : List (List Str)
deriving DecidableEq

/-- Everything that is not code of the package.  `exec` is the behaviour of a
child process given its command line: its result and what it leaves behind.
It is given the whole state, so that a helper that projects the configuration
file into the live environment (what the read-back checks of the package rely
on) is a `Host` like any other.  `lookPath` is `exec.LookPath`, `caller` the
file name `runtime.Caller(0)` reports (`none` when `ok` is false), `join` and
`dir` are `filepath.Join` on two elements and `filepath.Dir`. -/
structure Host where
  exec : List Str → Sys → Sys × ExecResult
  lookPath : Str → Sys → Option Str
  caller : Option Str
  join : Str → Str → Str
  dir : Str → Str

/-- The `fmt.Errorf` sites of `envmanager.go`, one constructor per site (the
two verifiers and the two rewriting operations share theirs). -/
inductive Err where
  | verifyFailed       -- lines 28, 43
  | noVersion          -- lines 31, 46
  | verifyBothFailed   -- line 63
  | setPathFailed      -- line 72
  | noCaller           -- line 91
  | notFound           -- line 125
  | findFailed         -- line 132
  | commandInvalid     -- line 138
  | execFailed         -- line 144
  | loadFailed         -- line 153
  | sourceFailed       -- line 159
  | readFailed         -- lines 174, 256
  | writeFailed        -- lines 198, 281
  | reloadFailed       -- lines 203, 286
  | valueMismatch      -- line 209
  | testWriteFailed    -- line 225
  | testMismatch       -- line 231
  | testCleanupFailed  -- line 236
  | loaderCheckFailed  -- line 246
  | stillPresent       -- line 291
deriving DecidableEq

/-- Go `os.Getenv`: the value, or the empty string when the key is unset. -/
def getenv (key : Str) (s : Sys) : Str := (s.env.lookup key).getD []

/-- Go `os.Setenv`: refused (`EINVAL`) for an empty key, a key holding `=` or
NUL, and a value holding NUL. -/
def setenv (key value : Str) (s : Sys) : Option Sys :=
  if key = [] ∨ '=' ∈ key ∨ Char.ofNat 0 ∈ key ∨ Char.ofNat 0 ∈ value then none
  else some { s with env := (key, value) :: s.env }

/-- Go `os.Stat(path)` returning `err == nil`. -/
def stat (path : Str) (s : Sys) : Bool := (s.files.lookup path).isSome

/-- Go `os.ReadFile`. -/
def readFile (path : Str) (s : Sys) : Option Str := s.files.lookup path

/-- Go `os.WriteFile(path, content, 0644)`. -/
def writeFile (path content : Str) (s : Sys) : Option Sys :=
  if path ∈ s.locked then none
  else some { s with files := (path, content) :: s.files }

/-- Run a child process: the host decides what it does; the command line is
appended to the record of spawned processes. -/
def spawn (h : Host) (cmd : List Str) (s : Sys) : Sys × ExecResult :=
  ({ (h.exec cmd s).1 with spawned := s.spawned ++ [cmd] }, (h.exec cmd s).2)

/-! ## `envmanager.go`, function by function

An `error` result is `Option Err` (`none` is `nil`); a `(string, error)` result
is `Except Err Str`.  Calls to `log.Printf` have no effect on `Sys` and are left
out. -/

/-- `verifyEnvLoaderComponent` (lines 23-34). -/
def verifyEnvLoaderComponent (h : Host) (path : Str) (s : Sys) : Sys × Option Err :=
  let r := spawn h [path, verArg] s
  if !r.2.succeeded then (r.1, some .verifyFailed)
  else if r.2.output.length = 0 then (r.1, some .noVersion)
  else (r.1, none)

/-- `verifyEnvLoaderName` (lines 38-49). -/
def verifyEnvLoaderName (h : Host) (envLoaderName : Str) (s : Sys) : Sys × Option Err :=
  let r := spawn h [envLoaderName, verArg] s
  if !r.2.succeeded then (r.1, some .verifyFailed)
  else if r.2.output.length = 0 then (r.1, some .noVersion)
  else (r.1, none)

/-- `verifyAndGetCommand` (lines 52-64). -/
def verifyAndGetCommand (h : Host) (path : Str) (s : Sys) : Sys × Except Err Str :=
  let v1 := verifyEnvLoaderComponent h path s
  if v1.2 = none then (v1.1, .ok path)
  else
    let v2 := verifyEnvLoaderName h envLoaderName v1.1
    if v2.2 = none then (v2.1, .ok envLoaderName)
    else (v2.1, .error .verifyBothFailed)

/-- `updateSystemPath` (lines 67-76). -/
def updateSystemPath (componentDir : Str) (s : Sys) : Sys × Option Err :=
  let currentPath := getenv pathVar s
  if !contains currentPath componentDir then
    let newPath := currentPath ++ ':' :: componentDir
    match setenv pathVar newPath s with
    | none => (s, some .setPathFailed)
    | some s1 => (s1, none)
  else (s, none)

deriving instance DecidableEq for Except

/-- The result of a call that may not return within the allowed nesting. -/
abbrev Outcome (α : Type) := Option (Sys × α)

/-- `ExecEnvLoader` (lines 129-147); `find` is its call of `findEnvLoader`. -/
def ExecEnvLoaderVia (find : Sys → Outcome (Except Err Str)) (h : Host)
    (command : Str) (s : Sys) : Outcome (Option Err) :=
  match find s with
  | none => none
  | some (s1, .error _) => some (s1, some .findFailed)
  | some (s1, .ok loaderPath) =>
    match verifyAndGetCommand h loaderPath s1 with
    | (s2, .error _) => some (s2, some .commandInvalid)
    | (s2, .ok cmdPath) =>
      let r := spawn h [cmdPath, command] s2
      if !r.2.succeeded then some (r.1, some .execFailed) else some (r.1, none)

/-- `ReloadEnv` (lines 150-163). -/
def ReloadEnvVia (find : Sys → Outcome (Except Err Str)) (h : Host)
    (s : Sys) : Outcome (Option Err) :=
  match ExecEnvLoaderVia find h reloadArg s with
  | none => none
  | some (s1, some _) => some (s1, some .loadFailed)
  | some (s1, none) =>
    let r := spawn h (bashName :: sourceArgs) s1
    if !r.2.succeeded then some (r.1, some .sourceFailed) else some (r.1, none)

/-- The path of the configuration file (lines 168-169 and 250-251). -/
def envFilePath (h : Host) (s : Sys) : Str :=
  h.join (getenv baseDirVar s) envFileName

/-- Steps 7 and 8 of `UpdateEnvironmentVariable` (lines 201-218), run in the
state the write left: reload, then read the key back. -/
def confirmUpdate (find : Sys → Outcome (Except Err Str)) (h : Host)
    (key value : Str) (s1 : Sys) : Outcome (Option Err) :=
  match ReloadEnvVia find h s1 with
  | none => none
  | some (s2, some _) => some (s2, some .reloadFailed)
  | some (s2, none) =>
    if getenv key s2 ≠ value then some (s2, some .valueMismatch)
    else some (s2, none)

/-- `UpdateEnvironmentVariable` (lines 166-219). -/
def UpdateEnvironmentVariableVia (find : Sys → Outcome (Except Err Str)) (h : Host)
    (key value : Str) (s : Sys) : Outcome (Option Err) :=
  let envFile := envFilePath h s
  match readFile envFile s with
  | none => some (s, some .readFailed)
  | some content =>
    match writeFile envFile (updatedContent key value content) s with
    | none => some (s, some .writeFailed)
    | some s1 => confirmUpdate find h key value s1

/-- `VerifyEnvLoader` (lines 222-240). -/
def VerifyEnvLoaderVia (find : Sys → Outcome (Except Err Str)) (h : Host)
    (s : Sys) : Outcome (Option Err) :=
  match UpdateEnvironmentVariableVia find h testEnvKey testEnvValue s with
  | none => none
  | some (s1, some _) => some (s1, some .testWriteFailed)
  | some (s1, none) =>
    if getenv testEnvKey s1 ≠ testEnvValue then some (s1, some .testMismatch)
    else
      match UpdateEnvironmentVariableVia find h testEnvKey [] s1 with
      | none => none
      | some (s2, some _) => some (s2, some .testCleanupFailed)
      | some (s2, none) => some (s2, none)

/-- Steps 5 and 6 of `RemoveEnvironmentVariable` (lines 284-295), run in the
state the write left: reload, then read the key back. -/
def confirmRemoval (find : Sys → Outcome (Except Err Str)) (h : Host)
    (key : Str) (s2 : Sys) : Outcome (Option Err) :=
  match ReloadEnvVia find h s2 with
  | none => none
  | some (s3, some _) => some (s3, some .reloadFailed)
  | some (s3, none) =>
    if getenv key s3 ≠ [] then some (s3, some .stillPresent)
    else some (s3, none)

/-- `RemoveEnvironmentVariable` (lines 243-296). -/
def RemoveEnvironmentVariableVia (find : Sys → Outcome (Except Err Str)) (h : Host)
    (key : Str) (s : Sys) : Outcome (Option Err) :=
  match VerifyEnvLoaderVia find h s with
  | none => none
  | some (s1, some _) => some (s1, some .loaderCheckFailed)
  | some (s1, none) =>
    let envFile := envFilePath h s1
    match readFile envFile s1 with
    | none => some (s1, some .readFailed)
    | some content =>
      if !(scanLines key (splitLines content)).2 then some (s1, none)
      else
        match writeFile envFile (removedContent key content) s1 with
        | none => some (s1, some .writeFailed)
        | some s2 => confirmRemoval find h key s2

/-- The second tier of `findEnvLoader` (lines 98-108): the local copy.  The
flag says whether the tier returned `componentPath`; when it is false control
falls through to line 110 in the state given. -/
def findEnvLoaderLocal (find : Sys → Outcome (Except Err Str)) (h : Host)
    (componentPath : Str) (s : Sys) : Outcome Bool :=
  if stat componentPath s then
    let v := verifyEnvLoaderComponent h componentPath s
    if v.2 = none then
      let u := updateSystemPath (h.dir componentPath) v.1
      if u.2 = none then
        match UpdateEnvironmentVariableVia find h envLoaderDirKey (h.dir componentPath) u.1 with
        | none => none
        | some (s3, none) => some (s3, true)
        | some (s3, some _) => some (s3, false)
      else some (u.1, false)
    else some (v.1, false)
  else some (s, false)

/-- The third tier of `findEnvLoader` (lines 110-125): the self-repair script. -/
def findEnvLoaderRepair (h : Host) (pkgDir componentPath : Str) (s : Sys) :
    Sys × Except Err Str :=
  let updateScript := h.join pkgDir updateScriptPath
  if stat updateScript s then
    let r := spawn h [bashName, updateScript] s
    if r.2.succeeded then
      if stat componentPath r.1 then
        let v := verifyEnvLoaderComponent h componentPath r.1
        if v.2 = none then (v.1, .ok componentPath)
        else (v.1, .error .notFound)
      else (r.1, .error .notFound)
    else (r.1, .error .notFound)
  else (s, .error .notFound)

/-- The body of `findEnvLoader` (lines 79-126); `find` is the call of
`findEnvLoader` nested in it through `UpdateEnvironmentVariable`, `ReloadEnv`
and `ExecEnvLoader`. -/
def findEnvLoaderStep (find : Sys → Outcome (Except Err Str)) (h : Host)
    (s : Sys) : Outcome (Except Err Str) :=
  let v := verifyEnvLoaderName h envLoaderName s
  match (if v.2 = none then h.lookPath envLoaderName v.1 else none) with
  | some path => some (v.1, .ok path)
  | none =>
    match h.caller with
    | none => some (v.1, .error .noCaller)
    | some filename =>
      let pkgDir := h.dir filename
      let componentPath := h.join pkgDir localPath
      match findEnvLoaderLocal find h componentPath v.1 with
      | none => none
      | some (s2, true) => some (s2, .ok componentPath)
      | some (s2, false) => some (findEnvLoaderRepair h pkgDir componentPath s2)

/-- `findEnvLoader` (lines 79-126), allowed `depth` nested activations of
itself: `none` means that the activation at nesting level `depth + 1` was
reached, every other outcome is what the Go function returns. -/
def findEnvLoader (h : Host) : Nat → Sys → Outcome (Except Err Str)
  | 0 => fun _ => none
  | depth + 1 => findEnvLoaderStep (findEnvLoader h depth) h

/-- `ExecEnvLoader`, with at most `depth` nested activations of `findEnvLoader`. -/
def ExecEnvLoader (h : Host) (depth : Nat) : Str → Sys → Outcome (Option Err) :=
  ExecEnvLoaderVia (findEnvLoader h depth) h

/-- `ReloadEnv`, with at most `depth` nested activations of `findEnvLoader`. -/
def ReloadEnv (h : Host) (depth : Nat) : Sys → Outcome (Option Err) :=
  ReloadEnvVia (findEnvLoader h depth) h

/-- `UpdateEnvironmentVariable`, with at most `depth` nested activations of
`findEnvLoader`. -/
def UpdateEnvironmentVariable (h : Host) (depth : Nat) : Str → Str → Sys → Outcome (Option Err) :=
  UpdateEnvironmentVariableVia (findEnvLoader h depth) h

/-- `VerifyEnvLoader`, with at most `depth` nested activations of `findEnvLoader`. -/
def VerifyEnvLoader (h : Host) (depth : Nat) : Sys → Outcome (Option Err) :=
  VerifyEnvLoaderVia (findEnvLoader h depth) h

/-- `RemoveEnvironmentVariable`, with at most `depth` nested activations of
`findEnvLoader`. -/
def RemoveEnvironmentVariable (h : Host) (depth : Nat) : Str → Sys → Outcome (Option Err) :=
  RemoveEnvironmentVariableVia (findEnvLoader h depth) h

/-! ## Concrete hosts

Two machines on which the operations are run in the theorems below.  Both use
the same simple path functions, adequate for the clean absolute paths that
occur here. -/

/-- `filepath.Join` on two clean elements. -/
def joinPath (a b : Str) : Str := if a = [] then b else a ++ '/' :: b

/-- `filepath.Dir` on a clean path: the path without its last element. -/
def dirPath (p : Str) : Str :=
  let d := ((p.reverse.dropWhile (fun c => c != '/')).drop 1).reverse
  if d = [] then (if p.head? = some '/' then ['/'] else ['.']) else d

/-- Split a configuration line at its first `=`. -/
def parseLine (l : Str) : Option (Str × Str) :=
  match l.dropWhile (fun c => c != '=') with
  | [] => none
  | _ :: v => some (l.takeWhile (fun c => c != '='), v)

/-- What a working helper does on `reload`, as the read-back checks of the
package expect it: every `KEY=VALUE` line of the configuration file becomes a
binding of the live environment, later lines winning. -/
def projectFile (content : Str) (env : List (Str × Str)) : List (Str × Str) :=
  (splitLines content).foldl
    (fun e l => match parseLine l with
      | some kv => kv :: e
      | none => e) env

/-- The effect of `reload` of a working helper: exit 0 after projecting the
configuration file into the environment, exit 1 when the file cannot be read. -/
def helperReload (s : Sys) : Sys × ExecResult :=
  match readFile (joinPath (getenv baseDirVar s) envFileName) s with
  | some content => ({ s with env := projectFile content s.env }, .exited 0 [])
  | none => (s, .exited 1 [])

/-- A machine with the helper installed at `/usr/local/bin/aspnmy_envloader`
and on the search path: `ver` prints `1.0.0`, `reload` is `helperReload`,
sourcing `~/.bashrc` exits 0, and nothing else can be started. -/
def workingHost : Host where
  exec := fun cmd s =>
    if cmd = [envLoaderName, verArg] ∨ cmd = [installedPath, verArg] then
      (s, .exited 0 "1.0.0\n".toList)
    else if cmd = [envLoaderName, reloadArg] ∨ cmd = [installedPath, reloadArg] then
      helperReload s
    else if cmd = (bashName :: sourceArgs) then
      (s, .exited 0 [])
    else (s, .startFailed)
  lookPath := fun name _ => if name = envLoaderName then some installedPath else none
  caller := some "/opt/pkg/envmanager.go".toList
  join := joinPath
  dir := dirPath

/-- The state of `workingHost` with a configuration file of the given content
under `/srv/app` and the given extra bindings in the environment. -/
def workingSys (content : Str) (extra : List (Str × Str)) : Sys where
  env := extra ++ [(pathVar, "/usr/local/bin:/usr/bin".toList),
    (baseDirVar, "/srv/app".toList)]
  files := [("/srv/app/.env".toList, content)]
  locked := []
  spawned := []

/-- The package directory of the bundled machines is `/opt/pkg`; these are the
candidate path of line 96, its directory, and the script of line 112. -/
def localComponent : Str := "/opt/pkg/env_loader/aspnmy_envloader".toList
def localDir : Str := "/opt/pkg/env_loader".toList
def repairScript : Str := "/opt/pkg/env_loader/update.sh".toList

/-- On a bundled machine the bare name reaches the local copy when the copy
exists and its directory occurs in `PATH`. -/
def onPath (s : Sys) : Bool :=
  contains (getenv pathVar s) localDir && stat localComponent s

/-- A machine on which the helper is not installed system-wide and the package
lives in `/opt/pkg`.  The local copy, when the file exists, is a working helper.
The self-repair script, when the file exists, installs the local copy and exits
with `scriptExit`.  With `shadowed`, an executable `/broken/aspnmy_envloader`
that prints nothing and exits 0 comes first on the search path, so the bare
name always reaches it. -/
def bundledHost (shadowed : Bool) (scriptExit : Nat) : Host where
  exec := fun cmd s =>
    if cmd = [localComponent, verArg] then
      (if stat localComponent s then (s, .exited 0 "1.0.0\n".toList) else (s, .startFailed))
    else if cmd = [localComponent, reloadArg] then
      (if stat localComponent s then helperReload s else (s, .startFailed))
    else if cmd = [envLoaderName, verArg] then
      (if shadowed then (s, .exited 0 [])
       else if onPath s then (s, .exited 0 "1.0.0\n".toList) else (s, .startFailed))
    else if cmd = [envLoaderName, reloadArg] then
      (if shadowed then (s, .exited 0 [])
       else if onPath s then helperReload s else (s, .startFailed))
    else if cmd = [bashName, repairScript] then
      (if stat repairScript s then
        ({ s with files := (localComponent, "#!/bin/bash\n".toList) :: s.files },
          .exited scriptExit [])
       else (s, .exited 127 []))
    else if cmd = (bashName :: sourceArgs) then
      (s, .exited 0 [])
    else (s, .startFailed)
  lookPath := fun name s =>
    if name = envLoaderName then
      (if shadowed then some "/broken/aspnmy_envloader".toList
       else if onPath s then some localComponent else none)
    else none
  caller := some "/opt/pkg/envmanager.go".toList
  join := joinPath
  dir := dirPath

/-- A state of a bundled machine: the given `PATH`, the configuration
directory `/srv/app`, and the given files. -/
def bundledSys (path : Str) (files : List (Str × Str)) : Sys where
  env := [(pathVar, path), (baseDirVar, "/srv/app".toList)]
  files := files
  locked := []
  spawned := []

/-- The state an outcome ends in (`dflt` when the call did not return). -/
def Outcome.state {α : Type} (o : Outcome α) (dflt : Sys) : Sys :=
  match o with
  | some r => r.1
  | none => dflt

/-- The machine with a working helper and the two-line file `A=1`, `B=2`. -/
def twoLineSys : Sys := workingSys "A=1\nB=2".toList []

/-- The state `VerifyEnvLoader` leaves on `twoLineSys`. -/
def twoLineChecked : Sys := Outcome.state (VerifyEnvLoader workingHost 1 twoLineSys) twoLineSys

/-- A bundled machine before first use: the local copy, the self-repair
script and an empty configuration file exist, `PATH` is `/usr/bin`. -/
def freshSys : Sys :=
  bundledSys "/usr/bin".toList
    [(localComponent, "#!/bin/bash\n".toList), (repairScript, "#!/bin/bash\n".toList),
     ("/srv/app/.env".toList, [])]

/-- As `freshSys`, but without a configuration file. -/
def noConfigSys : Sys :=
  bundledSys "/usr/bin".toList
    [(localComponent, "#!/bin/bash\n".toList), (repairScript, "#!/bin/bash\n".toList)]

/-- As `freshSys`, but without the local copy. -/
def missingSys : Sys :=
  bundledSys "/usr/bin".toList
    [(repairScript, "#!/bin/bash\n".toList), ("/srv/app/.env".toList, [])]

/-- A bundled machine whose search path starts with `/broken`: the local copy
and an empty configuration file exist. -/
def shadowSys : Sys :=
  bundledSys "/broken:/usr/bin".toList
    [(localComponent, "#!/bin/bash\n".toList), ("/srv/app/.env".toList, [])]

/-- As `freshSys`, with a `PATH` value that `os.Setenv` refuses to extend (it
holds a NUL byte). -/
def nulPathSys : Sys :=
  bundledSys [Char.ofNat 0]
    [(localComponent, "#!/bin/bash\n".toList), (repairScript, "#!/bin/bash\n".toList),
     ("/srv/app/.env".toList, [])]

/-- The states of the shadowed machine in which `findEnvLoader` is entered
again and again: the local copy exists, the configuration file under `/srv/app`
can be read and written, and `PATH` holds no NUL byte. -/
def ShadowLoop (s : Sys) : Prop :=
  stat localComponent s = true ∧
  (readFile "/srv/app/.env".toList s).isSome = true ∧
  "/srv/app/.env".toList ∉ s.locked ∧
  getenv baseDirVar s = "/srv/app".toList ∧
  Char.ofNat 0 ∉ getenv pathVar s

/-- A line of one of the two keys the package itself keeps in the
configuration file: the sentinel `testenv` of the self-check (lines 224, 235)
and `aspnmy_envloaderDir` of the locator (line 103). -/
def ownLine (l : Str) : Bool :=
  startsWith l (testEnvKey ++ ['=']) || startsWith l (envLoaderDirKey ++ ['='])

/-- The lines of a configuration file that are neither blank nor of one of
the package's own keys, in their order. -/
def userLines (content : Str) : List Str :=
  (splitLines content).filter (fun l => decide (l ≠ []) && !ownLine l)

/-- A machine on which no child process touches a file or the variable
`ollama_scannerBaseDir`, and on which the directory of the local candidate
path holds no newline. -/
def Steady (h : Host) : Prop :=
  (∀ cmd s, (h.exec cmd s).1.files = s.files) ∧
  (∀ cmd s, getenv baseDirVar (h.exec cmd s).1 = getenv baseDirVar s) ∧
  (∀ filename, h.caller = some filename →
    '\n' ∉ h.dir (h.join (h.dir filename) localPath))

/-- Between `s` and `t` the configuration file kept its place and its user
lines (or stayed unreadable), and every other file is as it was. -/
def Keeps (h : Host) (s t : Sys) : Prop :=
  getenv baseDirVar t = getenv baseDirVar s ∧
  (readFile (envFilePath h s) t).map userLines
    = (readFile (envFilePath h s) s).map userLines ∧
  ∀ p, p ≠ envFilePath h s → readFile p t = readFile p s

/-- The effect of `reload` of a helper that makes the live environment mirror
the configuration file: exit 0 leaving as environment the bindings of the
file, over the `PATH` and under the `ollama_scannerBaseDir` the process had;
exit 1 when the file cannot be read. -/
def mirrorReload (s : Sys) : Sys × ExecResult :=
  match readFile (joinPath (getenv baseDirVar s) envFileName) s with
  | some content =>
    ({ s with env := (baseDirVar, getenv baseDirVar s)
        :: projectFile content [(pathVar, getenv pathVar s)] }, .exited 0 [])
  | none => (s, .exited 1 [])

/-- As `workingHost`, with `mirrorReload` for `reload`: a variable whose line
has left the file leaves the environment on the next reload. -/
def mirrorHost : Host where
  exec := fun cmd s =>
    if cmd = [envLoaderName, verArg] ∨ cmd = [installedPath, verArg] then
      (s, .exited 0 "1.0.0\n".toList)
    else if cmd = [envLoaderName, reloadArg] ∨ cmd = [installedPath, reloadArg] then
      mirrorReload s
    else if cmd = (bashName :: sourceArgs) then
      (s, .exited 0 [])
    else (s, .startFailed)
  lookPath := fun name _ => if name = envLoaderName then some installedPath else none
  caller := some "/opt/pkg/envmanager.go".toList
  join := joinPath
  dir := dirPath

/-- A bundled machine without helper: only the configuration file `A=1`,
`B=2` exists. -/
def noHelperSys : Sys :=
  bundledSys "/usr/bin".toList [("/srv/app/.env".toList, "A=1\nB=2".toList)]

/-! ## Lemmas on lines -/

theorem splitLines_ne_nil (s : Str) : splitLines s ≠ [] := by
  cases s with
  | nil => simp [splitLines]
  | cons c cs =>
    simp only [splitLines]
    split
    · simp
    · split <;> simp

/-- No piece of `strings.Split(s, "\n")` holds a newline. -/
theorem newline_not_mem_of_mem_splitLines (s : Str) :
    ∀ l ∈ splitLines s, '\n' ∉ l := by
  induction s with
  | nil => simp [splitLines]
  | cons c cs ih =>
    intro l hl
    simp only [splitLines] at hl
    split at hl
    · rcases List.mem_cons.mp hl with h | h
      · simp [h]
      · exact ih l h
    · rename_i hc
      split at hl
      · rename_i heq
        exact absurd heq (splitLines_ne_nil cs)
      · rename_i l0 ls heq
        rcases List.mem_cons.mp hl with h | h
        · subst h
          have h0 : '\n' ∉ l0 := ih l0 (by simp [heq])
          simp only [List.mem_cons, not_or]
          exact ⟨fun e => hc e.symm, h0⟩
        · exact ih l (by simp [heq, h])

theorem splitLines_append_newline (l rest : Str) (hl : '\n' ∉ l) :
    splitLines (l ++ '\n' :: rest) = l :: splitLines rest := by
  induction l with
  | nil => simp [splitLines]
  | cons c cs ih =>
    simp only [List.mem_cons, not_or] at hl
    have hc : c ≠ '\n' := fun e => hl.1 e.symm
    simp [splitLines, hc, ih hl.2]

theorem splitLines_of_no_newline (l : Str) (hl : '\n' ∉ l) : splitLines l = [l] := by
  induction l with
  | nil => simp [splitLines]
  | cons c cs ih =>
    simp only [List.mem_cons, not_or] at hl
    have hc : c ≠ '\n' := fun e => hl.1 e.symm
    simp [splitLines, hc, ih hl.2]

/-- Splitting what `strings.Join` built from newline-free pieces gives the
pieces back. -/
theorem splitLines_joinLines (ls : List Str) (hne : ls ≠ [])
    (hls : ∀ l ∈ ls, '\n' ∉ l) : splitLines (joinLines ls) = ls := by
  induction ls with
  | nil => exact absurd rfl hne
  | cons l rest ih =>
    cases rest with
    | nil => simpa [joinLines] using splitLines_of_no_newline l (hls l (by simp))
    | cons l2 rest2 =>
      simp only [joinLines]
      rw [splitLines_append_newline l _ (hls l (by simp))]
      rw [ih (by simp) (fun x hx => hls x (List.mem_cons_of_mem _ hx))]

/-- The lines `scanLines` keeps: the non-empty ones without the prefix. -/
theorem scanLines_fst (key : Str) (lines : List Str) :
    (scanLines key lines).1
      = lines.filter (fun l => !startsWith l (key ++ ['=']) && decide (l ≠ [])) := by
  induction lines with
  | nil => simp [scanLines]
  | cons l rest ih =>
    simp only [scanLines]
    by_cases h1 : startsWith l (key ++ ['=']) = true
    · simp [h1, ih]
    · by_cases h2 : l = []
      · subst h2
        simp [h1, ih]
      · simp [h1, h2, ih]

/-- The flag `found` of `scanLines`: some line has the prefix. -/
theorem scanLines_snd (key : Str) (lines : List Str) :
    (scanLines key lines).2 = lines.any (fun l => startsWith l (key ++ ['='])) := by
  induction lines with
  | nil => simp [scanLines]
  | cons l rest ih =>
    simp only [scanLines]
    by_cases h1 : startsWith l (key ++ ['=']) = true
    · simp [h1]
    · by_cases h2 : l = []
      · subst h2
        simp [h1, ih]
      · simp [h1, h2, ih]

theorem startsWith_assignment (key value : Str) :
    startsWith (assignment key value) (key ++ ['=']) = true := by
  simp only [startsWith, assignment]
  induction key with
  | nil => simp [List.isPrefixOf]
  | cons c cs ih => simp [List.isPrefixOf, ih]

/-- The lines of the file `UpdateEnvironmentVariable` writes. -/
theorem splitLines_updatedContent (key value content : Str)
    (hk : '\n' ∉ key) (hv : '\n' ∉ value) :
    splitLines (updatedContent key value content)
      = (splitLines content).filter
          (fun l => !startsWith l (key ++ ['=']) && decide (l ≠ []))
        ++ [assignment key value] := by
  unfold updatedContent
  rw [splitLines_joinLines _ (by simp), scanLines_fst]
  intro l hl
  rcases List.mem_append.mp hl with h | h
  · rw [scanLines_fst] at h
    exact newline_not_mem_of_mem_splitLines content l (List.mem_filter.mp h).1
  · simp only [List.mem_singleton] at h
    subst h
    simp only [assignment, List.mem_append, List.mem_cons, not_or]
    exact ⟨hk, by decide, hv⟩

/-! ## User lines under the two rewrites -/

theorem ownLine_assignment (key value : Str)
    (hkey : key = testEnvKey ∨ key = envLoaderDirKey) :
    ownLine (assignment key value) = true := by
  unfold ownLine
  rcases hkey with hk | hk
  · subst hk
    rw [startsWith_assignment]
    rfl
  · subst hk
    rw [startsWith_assignment]
    exact Bool.or_true _

theorem not_startsWith_of_not_ownLine (key l : Str)
    (hkey : key = testEnvKey ∨ key = envLoaderDirKey) (hl : ownLine l = false) :
    startsWith l (key ++ ['=']) = false := by
  unfold ownLine at hl
  rw [Bool.or_eq_false_iff] at hl
  rcases hkey with hk | hk
  · subst hk; exact hl.1
  · subst hk; exact hl.2

/-- Writing one of the package's own keys with `UpdateEnvironmentVariable`
leaves the user lines as they were. -/
theorem userLines_updatedContent (key value content : Str)
    (hkey : key = testEnvKey ∨ key = envLoaderDirKey) (hv : '\n' ∉ value) :
    userLines (updatedContent key value content) = userLines content := by
  have hk : '\n' ∉ key := by
    rcases hkey with hk | hk
    · subst hk; decide
    · subst hk; decide
  unfold userLines
  rw [splitLines_updatedContent key value content hk hv, List.filter_append,
    List.filter_filter]
  have hlast : List.filter (fun l => decide (l ≠ []) && !ownLine l) [assignment key value]
      = [] := by
    simp [List.filter, ownLine_assignment key value hkey]
  rw [hlast, List.append_nil]
  apply List.filter_congr
  intro l _
  cases hown : ownLine l with
  | true => simp
  | false => simp [not_startsWith_of_not_ownLine key l hkey hown]

theorem userLines_joinLines (ls : List Str) (hls : ∀ l ∈ ls, '\n' ∉ l) :
    userLines (joinLines ls) = ls.filter (fun l => decide (l ≠ []) && !ownLine l) := by
  cases ls with
  | nil => simp [userLines, joinLines, splitLines]
  | cons l rest =>
    unfold userLines
    rw [splitLines_joinLines (l :: rest) (by simp) hls]

/-- The user lines of what `RemoveEnvironmentVariable(key)` writes are the
user lines before, without those that start with `key=`. -/
theorem userLines_removedContent (key content : Str) :
    userLines (removedContent key content)
      = (userLines content).filter (fun l => !startsWith l (key ++ ['='])) := by
  unfold removedContent
  rw [scanLines_fst, userLines_joinLines]
  · unfold userLines
    rw [List.filter_filter, List.filter_filter]
    apply List.filter_congr
    intro l _
    cases decide (l ≠ []) <;> cases ownLine l <;> cases startsWith l (key ++ ['=']) <;> rfl
  · intro l hl
    exact newline_not_mem_of_mem_splitLines content l (List.mem_filter.mp hl).1

/-! ## System lemmas -/

theorem readFile_writeFile (path content : Str) (s s1 : Sys)
    (hw : writeFile path content s = some s1) : readFile path s1 = some content := by
  unfold writeFile at hw
  split at hw
  · exact absurd hw (by simp)
  · simp only [Option.some.injEq] at hw
    subst hw
    simp [readFile, List.lookup]

theorem writeFile_of_not_locked (path content : Str) (s : Sys) (hl : path ∉ s.locked) :
    writeFile path content s = some { s with files := (path, content) :: s.files } := by
  simp [writeFile, hl]

/-- How `UpdateEnvironmentVariable` proceeds on a readable, writable file. -/
theorem UpdateEnvironmentVariableVia_of_read (find : Sys → Outcome (Except Err Str))
    (h : Host) (key value content : Str) (s : Sys)
    (hr : readFile (envFilePath h s) s = some content)
    (hl : envFilePath h s ∉ s.locked) :
    UpdateEnvironmentVariableVia find h key value s
      = confirmUpdate find h key value
          { s with files := (envFilePath h s, updatedContent key value content) :: s.files } := by
  simp [UpdateEnvironmentVariableVia, hr, writeFile_of_not_locked _ _ _ hl]

theorem contains_append_right (a b : Str) : contains (a ++ b) b = true := by
  simp only [contains, List.any_eq_true]
  exact ⟨b, (List.mem_tails _ _).mpr (List.suffix_append a b),
    List.isPrefixOf_iff_prefix.mpr (List.prefix_refl b)⟩

theorem getenv_setenv (key value : Str) (s s1 : Sys) (hs : setenv key value s = some s1) :
    getenv key s1 = value := by
  unfold setenv at hs
  split at hs
  · exact absurd hs (by simp)
  · simp only [Option.some.injEq] at hs
    subst hs
    simp [getenv, List.lookup]

/-- The three ways `updateSystemPath` ends. -/
theorem updateSystemPath_cases (dir : Str) (s : Sys) :
    (contains (getenv pathVar s) dir = true ∧ updateSystemPath dir s = (s, none)) ∨
    (contains (getenv pathVar s) dir = false ∧
      setenv pathVar (getenv pathVar s ++ ':' :: dir) s = none ∧
      updateSystemPath dir s = (s, some .setPathFailed)) ∨
    (contains (getenv pathVar s) dir = false ∧
      ∃ s1, setenv pathVar (getenv pathVar s ++ ':' :: dir) s = some s1 ∧
        updateSystemPath dir s = (s1, none)) := by
  unfold updateSystemPath
  cases hc : contains (getenv pathVar s) dir with
  | true => exact Or.inl ⟨rfl, by simp [hc]⟩
  | false =>
    cases hset : setenv pathVar (getenv pathVar s ++ ':' :: dir) s with
    | none => exact Or.inr (Or.inl ⟨rfl, rfl, by simp [hc, hset]⟩)
    | some s1 => exact Or.inr (Or.inr ⟨rfl, s1, rfl, by simp [hc, hset]⟩)

theorem contains_path_append (p dir : Str) : contains (p ++ ':' :: dir) dir = true := by
  have := contains_append_right (p ++ [':']) dir
  simpa using this

/-- A successful `updateSystemPath` leaves the directory in `PATH`. -/
theorem contains_of_updateSystemPath (dir : Str) (s : Sys)
    (hu : (updateSystemPath dir s).2 = none) :
    contains (getenv pathVar (updateSystemPath dir s).1) dir = true := by
  rcases updateSystemPath_cases dir s with ⟨hc, he⟩ | ⟨_, _, he⟩ | ⟨_, s1, hset, he⟩
  · rw [he]; exact hc
  · rw [he] at hu; simp at hu
  · rw [he, getenv_setenv _ _ s s1 hset]
    exact contains_path_append _ dir

/-- What a successful `confirmUpdate` has established. -/
theorem confirmUpdate_ok (find : Sys → Outcome (Except Err Str)) (h : Host)
    (key value : Str) (s1 s2 : Sys)
    (hc : confirmUpdate find h key value s1 = some (s2, none)) :
    ReloadEnvVia find h s1 = some (s2, none) ∧ getenv key s2 = value := by
  unfold confirmUpdate at hc
  split at hc
  · exact absurd hc (by simp)
  · simp at hc
  · split at hc
    · simp at hc
    · rename_i s3 heq hne
      simp only [Option.some.injEq, Prod.mk.injEq, and_true] at hc
      subst hc
      exact ⟨heq, not_not.mp hne⟩

/-- What a successful `UpdateEnvironmentVariable` has done. -/
theorem UpdateEnvironmentVariableVia_ok (find : Sys → Outcome (Except Err Str))
    (h : Host) (key value : Str) (s s2 : Sys)
    (hu : UpdateEnvironmentVariableVia find h key value s = some (s2, none)) :
    ∃ content s1, readFile (envFilePath h s) s = some content ∧
      writeFile (envFilePath h s) (updatedContent key value content) s = some s1 ∧
      ReloadEnvVia find h s1 = some (s2, none) ∧ getenv key s2 = value := by
  unfold UpdateEnvironmentVariableVia at hu
  simp only at hu
  split at hu
  · simp at hu
  · rename_i content hr
    split at hu
    · simp at hu
    · rename_i s1 hw
      exact ⟨content, s1, hr, hw, confirmUpdate_ok find h key value s1 s2 hu⟩

/-- What a successful `confirmRemoval` has established. -/
theorem confirmRemoval_ok (find : Sys → Outcome (Except Err Str)) (h : Host)
    (key : Str) (s2 s3 : Sys)
    (hc : confirmRemoval find h key s2 = some (s3, none)) :
    ReloadEnvVia find h s2 = some (s3, none) ∧ getenv key s3 = [] := by
  unfold confirmRemoval at hc
  split at hc
  · exact absurd hc (by simp)
  · simp at hc
  · split at hc
    · simp at hc
    · rename_i s4 heq hne
      simp only [Option.some.injEq, Prod.mk.injEq, and_true] at hc
      subst hc
      exact ⟨heq, not_not.mp hne⟩

/-- What a successful `RemoveEnvironmentVariable` has done: the self-check
passed, and then either no line had the prefix and nothing more happened, or
the file was rewritten, reloaded, and the key read back empty. -/
theorem RemoveEnvironmentVariableVia_ok (find : Sys → Outcome (Except Err Str))
    (h : Host) (key : Str) (s s3 : Sys)
    (hrm : RemoveEnvironmentVariableVia find h key s = some (s3, none)) :
    ∃ s1 content, VerifyEnvLoaderVia find h s = some (s1, none) ∧
      readFile (envFilePath h s1) s1 = some content ∧
      (((scanLines key (splitLines content)).2 = false ∧ s3 = s1) ∨
       ((scanLines key (splitLines content)).2 = true ∧
         ∃ s2, writeFile (envFilePath h s1) (removedContent key content) s1 = some s2 ∧
           ReloadEnvVia find h s2 = some (s3, none) ∧ getenv key s3 = [])) := by
  unfold RemoveEnvironmentVariableVia at hrm
  split at hrm
  · simp at hrm
  · simp at hrm
  · rename_i s1 hv
    simp only at hrm
    split at hrm
    · simp at hrm
    · rename_i content hr
      refine ⟨s1, content, hv, hr, ?_⟩
      by_cases hf : (scanLines key (splitLines content)).2 = true
      · simp only [hf, Bool.not_true, Bool.false_eq_true, if_false] at hrm
        split at hrm
        · simp at hrm
        · rename_i s2 hw
          exact Or.inr ⟨hf, s2, hw, confirmRemoval_ok find h key s2 s3 hrm⟩
      · simp only [Bool.not_eq_true] at hf
        simp only [hf, Bool.not_false, if_true, Option.some.injEq, Prod.mk.injEq,
          and_true] at hrm
        exact Or.inl ⟨hf, hrm.symm⟩

/-- `verifyEnvLoaderComponent` spawns exactly one process, `path ver`. -/
theorem verifyEnvLoaderComponent_spawned (h : Host) (path : Str) (s : Sys) :
    (verifyEnvLoaderComponent h path s).1.spawned = s.spawned ++ [[path, verArg]] := by
  unfold verifyEnvLoaderComponent
  simp only
  split
  · rfl
  · split <;> rfl

/-- When the local tier returns the candidate path, every step of it
succeeded. -/
theorem findEnvLoaderLocal_true (find : Sys → Outcome (Except Err Str)) (h : Host)
    (componentPath : Str) (s s3 : Sys)
    (hl : findEnvLoaderLocal find h componentPath s = some (s3, true)) :
    stat componentPath s = true ∧
    (verifyEnvLoaderComponent h componentPath s).2 = none ∧
    (updateSystemPath (h.dir componentPath)
      (verifyEnvLoaderComponent h componentPath s).1).2 = none ∧
    UpdateEnvironmentVariableVia find h envLoaderDirKey (h.dir componentPath)
      (updateSystemPath (h.dir componentPath)
        (verifyEnvLoaderComponent h componentPath s).1).1 = some (s3, none) := by
  unfold findEnvLoaderLocal at hl
  by_cases h1 : stat componentPath s = true
  · by_cases h2 : (verifyEnvLoaderComponent h componentPath s).2 = none
    · by_cases h3 : (updateSystemPath (h.dir componentPath)
          (verifyEnvLoaderComponent h componentPath s).1).2 = none
      · simp only [h1, h2, h3, if_true] at hl
        refine ⟨h1, h2, h3, ?_⟩
        split at hl
        · simp at hl
        · rename_i s4 heq
          simp only [Option.some.injEq, Prod.mk.injEq, and_true] at hl
          rw [heq, hl]
        · simp at hl
      · simp [h1, h2, h3] at hl
    · simp [h1, h2] at hl
  · simp [h1] at hl

/-- When the self-repair tier returns a path, the script existed, ran and
exited 0, and the candidate then existed and verified. -/
theorem findEnvLoaderRepair_ok (h : Host) (pkgDir componentPath p : Str) (s s3 : Sys)
    (hr : findEnvLoaderRepair h pkgDir componentPath s = (s3, .ok p)) :
    p = componentPath ∧
    stat (h.join pkgDir updateScriptPath) s = true ∧
    (spawn h [bashName, h.join pkgDir updateScriptPath] s).2.succeeded = true ∧
    s3 = (verifyEnvLoaderComponent h componentPath
      (spawn h [bashName, h.join pkgDir updateScriptPath] s).1).1 := by
  unfold findEnvLoaderRepair at hr
  simp only at hr
  split at hr
  · rename_i h1
    split at hr
    · rename_i h2
      split at hr
      · split at hr
        · simp only [Prod.mk.injEq, Except.ok.injEq] at hr
          exact ⟨hr.2.symm, h1, h2, hr.1.symm⟩
        · simp at hr
      · simp at hr
    · simp at hr
  · simp at hr

/-! ## Outcomes do not depend on the allowed nesting

Once an operation returns within some nesting depth, it returns the same
result within every larger one. -/

theorem ExecEnvLoaderVia_mono (f g : Sys → Outcome (Except Err Str))
    (hfg : ∀ s r, f s = some r → g s = some r) (h : Host) (command : Str) (s : Sys)
    (r : Sys × Option Err) (hr : ExecEnvLoaderVia f h command s = some r) :
    ExecEnvLoaderVia g h command s = some r := by
  unfold ExecEnvLoaderVia at hr ⊢
  cases hf : f s with
  | none => simp [hf] at hr
  | some x =>
    rw [hf] at hr
    rw [hfg s x hf]
    exact hr

theorem ReloadEnvVia_mono (f g : Sys → Outcome (Except Err Str))
    (hfg : ∀ s r, f s = some r → g s = some r) (h : Host) (s : Sys)
    (r : Sys × Option Err) (hr : ReloadEnvVia f h s = some r) :
    ReloadEnvVia g h s = some r := by
  unfold ReloadEnvVia at hr ⊢
  cases hf : ExecEnvLoaderVia f h reloadArg s with
  | none => simp [hf] at hr
  | some x =>
    rw [hf] at hr
    rw [ExecEnvLoaderVia_mono f g hfg h reloadArg s x hf]
    exact hr

theorem confirmUpdate_mono (f g : Sys → Outcome (Except Err Str))
    (hfg : ∀ s r, f s = some r → g s = some r) (h : Host) (key value : Str) (s : Sys)
    (r : Sys × Option Err) (hr : confirmUpdate f h key value s = some r) :
    confirmUpdate g h key value s = some r := by
  unfold confirmUpdate at hr ⊢
  cases hf : ReloadEnvVia f h s with
  | none => simp [hf] at hr
  | some x =>
    rw [hf] at hr
    rw [ReloadEnvVia_mono f g hfg h s x hf]
    exact hr

theorem UpdateEnvironmentVariableVia_mono (f g : Sys → Outcome (Except Err Str))
    (hfg : ∀ s r, f s = some r → g s = some r) (h : Host) (key value : Str) (s : Sys)
    (r : Sys × Option Err) (hr : UpdateEnvironmentVariableVia f h key value s = some r) :
    UpdateEnvironmentVariableVia g h key value s = some r := by
  unfold UpdateEnvironmentVariableVia at hr ⊢
  simp only at hr ⊢
  cases hread : readFile (envFilePath h s) s with
  | none => simpa [hread] using hr
  | some content =>
    simp only [hread] at hr ⊢
    cases hw : writeFile (envFilePath h s) (updatedContent key value content) s with
    | none => simpa [hw] using hr
    | some s1 =>
      simp only [hw] at hr ⊢
      exact confirmUpdate_mono f g hfg h key value s1 r hr

theorem findEnvLoaderLocal_mono (f g : Sys → Outcome (Except Err Str))
    (hfg : ∀ s r, f s = some r → g s = some r) (h : Host) (componentPath : Str) (s : Sys)
    (r : Sys × Bool) (hr : findEnvLoaderLocal f h componentPath s = some r) :
    findEnvLoaderLocal g h componentPath s = some r := by
  unfold findEnvLoaderLocal at hr ⊢
  simp only at hr ⊢
  split
  · rename_i h1
    rw [if_pos h1] at hr
    split
    · rename_i h2
      rw [if_pos h2] at hr
      split
      · rename_i h3
        rw [if_pos h3] at hr
        cases hu : UpdateEnvironmentVariableVia f h envLoaderDirKey (h.dir componentPath)
            (updateSystemPath (h.dir componentPath)
              (verifyEnvLoaderComponent h componentPath s).1).1 with
        | none => simp [hu] at hr
        | some x =>
          rw [hu] at hr
          rw [UpdateEnvironmentVariableVia_mono f g hfg h _ _ _ x hu]
          exact hr
      · rename_i h3
        rw [if_neg h3] at hr
        exact hr
    · rename_i h2
      rw [if_neg h2] at hr
      exact hr
  · rename_i h1
    rw [if_neg h1] at hr
    exact hr

theorem findEnvLoaderStep_mono (f g : Sys → Outcome (Except Err Str))
    (hfg : ∀ s r, f s = some r → g s = some r) (h : Host) (s : Sys)
    (r : Sys × Except Err Str) (hr : findEnvLoaderStep f h s = some r) :
    findEnvLoaderStep g h s = some r := by
  unfold findEnvLoaderStep at hr ⊢
  simp only at hr ⊢
  cases hlook : (if (verifyEnvLoaderName h envLoaderName s).2 = none
      then h.lookPath envLoaderName (verifyEnvLoaderName h envLoaderName s).1
      else none) with
  | some path => simpa [hlook] using hr
  | none =>
    simp only [hlook] at hr ⊢
    cases hcaller : h.caller with
    | none => simpa [hcaller] using hr
    | some filename =>
      simp only [hcaller] at hr ⊢
      cases hl : findEnvLoaderLocal f h (h.join (h.dir filename) localPath)
          (verifyEnvLoaderName h envLoaderName s).1 with
      | none => simp [hl] at hr
      | some x =>
        rw [hl] at hr
        rw [findEnvLoaderLocal_mono f g hfg h _ _ x hl]
        exact hr

/-- A result of `findEnvLoader` within `depth` nested activations is its
result within `depth + 1`. -/
theorem findEnvLoader_succ (h : Host) (depth : Nat) :
    ∀ s r, findEnvLoader h depth s = some r → findEnvLoader h (depth + 1) s = some r := by
  induction depth with
  | zero => intro s r hr; simp [findEnvLoader] at hr
  | succ n ih =>
    intro s r hr
    exact findEnvLoaderStep_mono _ _ ih h s r hr

/-! ## What the operations keep on a steady machine -/

theorem envFilePath_of_base (h : Host) (s t : Sys)
    (hb : getenv baseDirVar t = getenv baseDirVar s) : envFilePath h t = envFilePath h s := by
  unfold envFilePath
  rw [hb]

theorem keeps_refl (h : Host) (s : Sys) : Keeps h s s := ⟨rfl, rfl, fun _ _ => rfl⟩

theorem keeps_trans {h : Host} {s t u : Sys} (h1 : Keeps h s t) (h2 : Keeps h t u) :
    Keeps h s u := by
  obtain ⟨b1, c1, o1⟩ := h1
  obtain ⟨b2, c2, o2⟩ := h2
  have hp : envFilePath h t = envFilePath h s := envFilePath_of_base h s t b1
  rw [hp] at c2 o2
  exact ⟨b2.trans b1, c2.trans c1, fun p hne => (o2 p hne).trans (o1 p hne)⟩

theorem keeps_of_same (h : Host) (s t : Sys) (hf : t.files = s.files)
    (hb : getenv baseDirVar t = getenv baseDirVar s) : Keeps h s t := by
  refine ⟨hb, ?_, ?_⟩
  · unfold readFile; rw [hf]
  · intro p _; unfold readFile; rw [hf]

theorem keeps_spawn (h : Host) (hst : Steady h) (cmd : List Str) (s : Sys) :
    Keeps h s (spawn h cmd s).1 :=
  keeps_of_same h s _ (hst.1 cmd s) (hst.2.1 cmd s)

theorem verifyEnvLoaderComponent_fst (h : Host) (path : Str) (s : Sys) :
    (verifyEnvLoaderComponent h path s).1 = (spawn h [path, verArg] s).1 := by
  unfold verifyEnvLoaderComponent
  simp only
  split
  · rfl
  · split <;> rfl

theorem verifyEnvLoaderName_fst (h : Host) (name : Str) (s : Sys) :
    (verifyEnvLoaderName h name s).1 = (spawn h [name, verArg] s).1 := by
  unfold verifyEnvLoaderName
  simp only
  split
  · rfl
  · split <;> rfl

theorem keeps_verifyEnvLoaderComponent (h : Host) (hst : Steady h) (path : Str) (s : Sys) :
    Keeps h s (verifyEnvLoaderComponent h path s).1 := by
  rw [verifyEnvLoaderComponent_fst]
  exact keeps_spawn h hst _ s

theorem keeps_verifyEnvLoaderName (h : Host) (hst : Steady h) (name : Str) (s : Sys) :
    Keeps h s (verifyEnvLoaderName h name s).1 := by
  rw [verifyEnvLoaderName_fst]
  exact keeps_spawn h hst _ s

theorem keeps_verifyAndGetCommand (h : Host) (hst : Steady h) (path : Str) (s : Sys) :
    Keeps h s (verifyAndGetCommand h path s).1 := by
  unfold verifyAndGetCommand
  simp only
  split
  · exact keeps_verifyEnvLoaderComponent h hst path s
  · have k := keeps_trans (keeps_verifyEnvLoaderComponent h hst path s)
      (keeps_verifyEnvLoaderName h hst envLoaderName _)
    split <;> exact k

theorem setenv_shape (key value : Str) (s s1 : Sys) (hs : setenv key value s = some s1) :
    s1 = { s with env := (key, value) :: s.env } := by
  unfold setenv at hs
  split at hs
  · exact absurd hs (by simp)
  · simp only [Option.some.injEq] at hs
    exact hs.symm

theorem keeps_updateSystemPath (h : Host) (dir : Str) (s : Sys) :
    Keeps h s (updateSystemPath dir s).1 := by
  rcases updateSystemPath_cases dir s with ⟨_, he⟩ | ⟨_, _, he⟩ | ⟨_, s1, hset, he⟩
  · rw [he]; exact keeps_refl h s
  · rw [he]; exact keeps_refl h s
  · rw [he, setenv_shape _ _ s s1 hset]
    refine keeps_of_same h s _ rfl ?_
    have hne : (baseDirVar == pathVar) = false := by decide
    simp only [getenv, List.lookup, hne]

/-- The state after a successful `os.WriteFile`. -/
theorem writeFile_shape (path content : Str) (s s1 : Sys)
    (hw : writeFile path content s = some s1) :
    s1 = { s with files := (path, content) :: s.files } := by
  unfold writeFile at hw
  split at hw
  · exact absurd hw (by simp)
  · simp only [Option.some.injEq] at hw
    exact hw.symm

/-- Rewriting the configuration file with the same user lines keeps. -/
theorem keeps_writeFile (h : Host) (s s1 : Sys) (content new : Str)
    (hr : readFile (envFilePath h s) s = some content)
    (hw : writeFile (envFilePath h s) new s = some s1)
    (hu : userLines new = userLines content) : Keeps h s s1 := by
  have hread := readFile_writeFile _ _ s s1 hw
  rw [writeFile_shape _ _ s s1 hw] at hread ⊢
  refine ⟨rfl, ?_, ?_⟩
  · rw [hread, hr]
    simp [hu]
  · intro p hne
    have hb : (p == envFilePath h s) = false := by simpa using hne
    simp only [readFile, List.lookup, hb]

theorem ExecEnvLoaderVia_keeps (h : Host) (hst : Steady h)
    (find : Sys → Outcome (Except Err Str))
    (hfind : ∀ s r, find s = some r → Keeps h s r.1) (command : Str) (s : Sys)
    (r : Sys × Option Err) (hr : ExecEnvLoaderVia find h command s = some r) :
    Keeps h s r.1 := by
  unfold ExecEnvLoaderVia at hr
  cases hf : find s with
  | none => simp [hf] at hr
  | some x =>
    obtain ⟨s1, res⟩ := x
    have k1 : Keeps h s s1 := hfind s _ hf
    rw [hf] at hr
    cases res with
    | error e =>
      simp only [Option.some.injEq] at hr
      subst hr
      exact k1
    | ok loaderPath =>
      simp only at hr
      have k2 := keeps_verifyAndGetCommand h hst loaderPath s1
      generalize verifyAndGetCommand h loaderPath s1 = vc at hr k2
      obtain ⟨s2, res2⟩ := vc
      cases res2 with
      | error e =>
        simp only [Option.some.injEq] at hr
        subst hr
        exact keeps_trans k1 k2
      | ok cmdPath =>
        simp only at hr
        have k3 := keeps_spawn h hst [cmdPath, command] s2
        split at hr <;>
          (simp only [Option.some.injEq] at hr
           subst hr
           exact keeps_trans (keeps_trans k1 k2) k3)

theorem ReloadEnvVia_keeps (h : Host) (hst : Steady h)
    (find : Sys → Outcome (Except Err Str))
    (hfind : ∀ s r, find s = some r → Keeps h s r.1) (s : Sys)
    (r : Sys × Option Err) (hr : ReloadEnvVia find h s = some r) :
    Keeps h s r.1 := by
  unfold ReloadEnvVia at hr
  cases he : ExecEnvLoaderVia find h reloadArg s with
  | none => simp [he] at hr
  | some x =>
    obtain ⟨s1, res⟩ := x
    have k1 : Keeps h s s1 := ExecEnvLoaderVia_keeps h hst find hfind reloadArg s _ he
    rw [he] at hr
    cases res with
    | some e =>
      simp only [Option.some.injEq] at hr
      subst hr
      exact k1
    | none =>
      simp only at hr
      have k2 := keeps_spawn h hst (bashName :: sourceArgs) s1
      split at hr <;>
        (simp only [Option.some.injEq] at hr
         subst hr
         exact keeps_trans k1 k2)

theorem confirmUpdate_keeps (h : Host) (hst : Steady h)
    (find : Sys → Outcome (Except Err Str))
    (hfind : ∀ s r, find s = some r → Keeps h s r.1) (key value : Str) (s : Sys)
    (r : Sys × Option Err) (hr : confirmUpdate find h key value s = some r) :
    Keeps h s r.1 := by
  unfold confirmUpdate at hr
  cases he : ReloadEnvVia find h s with
  | none => simp [he] at hr
  | some x =>
    obtain ⟨s1, res⟩ := x
    have k1 : Keeps h s s1 := ReloadEnvVia_keeps h hst find hfind s _ he
    rw [he] at hr
    cases res with
    | some e =>
      simp only [Option.some.injEq] at hr
      subst hr
      exact k1
    | none =>
      simp only at hr
      split at hr <;>
        (simp only [Option.some.injEq] at hr
         subst hr
         exact k1)

theorem confirmRemoval_keeps (h : Host) (hst : Steady h)
    (find : Sys → Outcome (Except Err Str))
    (hfind : ∀ s r, find s = some r → Keeps h s r.1) (key : Str) (s : Sys)
    (r : Sys × Option Err) (hr : confirmRemoval find h key s = some r) :
    Keeps h s r.1 := by
  unfold confirmRemoval at hr
  cases he : ReloadEnvVia find h s with
  | none => simp [he] at hr
  | some x =>
    obtain ⟨s1, res⟩ := x
    have k1 : Keeps h s s1 := ReloadEnvVia_keeps h hst find hfind s _ he
    rw [he] at hr
    cases res with
    | some e =>
      simp only [Option.some.injEq] at hr
      subst hr
      exact k1
    | none =>
      simp only at hr
      split at hr <;>
        (simp only [Option.some.injEq] at hr
         subst hr
         exact k1)

/-- `UpdateEnvironmentVariable` of one of the package's own keys keeps. -/
theorem UpdateEnvironmentVariableVia_keeps (h : Host) (hst : Steady h)
    (find : Sys → Outcome (Except Err Str))
    (hfind : ∀ s r, find s = some r → Keeps h s r.1) (key value : Str)
    (hkey : key = testEnvKey ∨ key = envLoaderDirKey) (hv : '\n' ∉ value) (s : Sys)
    (r : Sys × Option Err) (hr : UpdateEnvironmentVariableVia find h key value s = some r) :
    Keeps h s r.1 := by
  unfold UpdateEnvironmentVariableVia at hr
  simp only at hr
  cases hread : readFile (envFilePath h s) s with
  | none =>
    simp only [hread, Option.some.injEq] at hr
    subst hr
    exact keeps_refl h s
  | some content =>
    simp only [hread] at hr
    cases hw : writeFile (envFilePath h s) (updatedContent key value content) s with
    | none =>
      simp only [hw, Option.some.injEq] at hr
      subst hr
      exact keeps_refl h s
    | some s1 =>
      simp only [hw] at hr
      exact keeps_trans
        (keeps_writeFile h s s1 content _ hread hw
          (userLines_updatedContent key value content hkey hv))
        (confirmUpdate_keeps h hst find hfind key value s1 r hr)

theorem findEnvLoaderLocal_keeps (h : Host) (hst : Steady h)
    (find : Sys → Outcome (Except Err Str))
    (hfind : ∀ s r, find s = some r → Keeps h s r.1) (componentPath : Str)
    (hdir : '\n' ∉ h.dir componentPath) (s : Sys)
    (r : Sys × Bool) (hr : findEnvLoaderLocal find h componentPath s = some r) :
    Keeps h s r.1 := by
  unfold findEnvLoaderLocal at hr
  simp only at hr
  have k1 := keeps_verifyEnvLoaderComponent h hst componentPath s
  have k2 := keeps_updateSystemPath h (h.dir componentPath)
    (verifyEnvLoaderComponent h componentPath s).1
  split at hr
  · split at hr
    · split at hr
      · cases hu : UpdateEnvironmentVariableVia find h envLoaderDirKey (h.dir componentPath)
            (updateSystemPath (h.dir componentPath)
              (verifyEnvLoaderComponent h componentPath s).1).1 with
        | none => simp [hu] at hr
        | some x =>
          obtain ⟨s3, res⟩ := x
          have k3 : Keeps h _ s3 := UpdateEnvironmentVariableVia_keeps h hst find hfind
            envLoaderDirKey _ (Or.inr rfl) hdir _ _ hu
          rw [hu] at hr
          cases res <;>
            (simp only [Option.some.injEq] at hr
             subst hr
             exact keeps_trans (keeps_trans k1 k2) k3)
      · simp only [Option.some.injEq] at hr
        subst hr
        exact keeps_trans k1 k2
    · simp only [Option.some.injEq] at hr
      subst hr
      exact k1
  · simp only [Option.some.injEq] at hr
    subst hr
    exact keeps_refl h s

theorem findEnvLoaderRepair_keeps (h : Host) (hst : Steady h) (pkgDir componentPath : Str)
    (s : Sys) : Keeps h s (findEnvLoaderRepair h pkgDir componentPath s).1 := by
  unfold findEnvLoaderRepair
  simp only
  have k1 := keeps_spawn h hst [bashName, h.join pkgDir updateScriptPath] s
  split
  · split
    · split
      · have k2 := keeps_trans k1 (keeps_verifyEnvLoaderComponent h hst componentPath _)
        split <;> exact k2
      · exact k1
    · exact k1
  · exact keeps_refl h s

theorem findEnvLoaderStep_keeps (h : Host) (hst : Steady h)
    (find : Sys → Outcome (Except Err Str))
    (hfind : ∀ s r, find s = some r → Keeps h s r.1) (s : Sys)
    (r : Sys × Except Err Str) (hr : findEnvLoaderStep find h s = some r) :
    Keeps h s r.1 := by
  unfold findEnvLoaderStep at hr
  simp only at hr
  have k1 := keeps_verifyEnvLoaderName h hst envLoaderName s
  cases hlook : (if (verifyEnvLoaderName h envLoaderName s).2 = none
      then h.lookPath envLoaderName (verifyEnvLoaderName h envLoaderName s).1
      else none) with
  | some path =>
    simp only [hlook, Option.some.injEq] at hr
    subst hr
    exact k1
  | none =>
    simp only [hlook] at hr
    cases hcaller : h.caller with
    | none =>
      simp only [hcaller, Option.some.injEq] at hr
      subst hr
      exact k1
    | some filename =>
      simp only [hcaller] at hr
      cases hl : findEnvLoaderLocal find h (h.join (h.dir filename) localPath)
          (verifyEnvLoaderName h envLoaderName s).1 with
      | none => simp [hl] at hr
      | some x =>
        obtain ⟨s2, flag⟩ := x
        have k2 : Keeps h _ s2 := findEnvLoaderLocal_keeps h hst find hfind _
          (hst.2.2 filename hcaller) _ _ hl
        rw [hl] at hr
        cases flag with
        | true =>
          simp only [Option.some.injEq] at hr
          subst hr
          exact keeps_trans k1 k2
        | false =>
          simp only [Option.some.injEq] at hr
          subst hr
          exact keeps_trans (keeps_trans k1 k2) (findEnvLoaderRepair_keeps h hst _ _ s2)

/-- On a steady machine `findEnvLoader`, however deep it nests, keeps the user
lines of the configuration file and every other file. -/
theorem findEnvLoader_keeps (h : Host) (hst : Steady h) (depth : Nat) :
    ∀ s r, findEnvLoader h depth s = some r → Keeps h s r.1 := by
  induction depth with
  | zero => intro s r hr; simp [findEnvLoader] at hr
  | succ n ih =>
    intro s r hr
    exact findEnvLoaderStep_keeps h hst _ ih s r hr

/-- What a successful `VerifyEnvLoader` has done: both calls of
`UpdateEnvironmentVariable` for the sentinel succeeded, one after the other. -/
theorem VerifyEnvLoaderVia_ok (find : Sys → Outcome (Except Err Str)) (h : Host)
    (s s2 : Sys) (hv : VerifyEnvLoaderVia find h s = some (s2, none)) :
    ∃ s1, UpdateEnvironmentVariableVia find h testEnvKey testEnvValue s = some (s1, none) ∧
      UpdateEnvironmentVariableVia find h testEnvKey [] s1 = some (s2, none) := by
  unfold VerifyEnvLoaderVia at hv
  cases hu : UpdateEnvironmentVariableVia find h testEnvKey testEnvValue s with
  | none => simp [hu] at hv
  | some x =>
    obtain ⟨s1, res⟩ := x
    rw [hu] at hv
    cases res with
    | some e => simp at hv
    | none =>
      simp only at hv
      split at hv
      · simp at hv
      · cases hu2 : UpdateEnvironmentVariableVia find h testEnvKey [] s1 with
        | none => simp [hu2] at hv
        | some y =>
          obtain ⟨s3, res2⟩ := y
          rw [hu2] at hv
          cases res2 with
          | some e => simp at hv
          | none =>
            simp only [Option.some.injEq, Prod.mk.injEq, and_true] at hv
            subst hv
            exact ⟨s1, rfl, hu2⟩

theorem VerifyEnvLoaderVia_keeps (h : Host) (hst : Steady h)
    (find : Sys → Outcome (Except Err Str))
    (hfind : ∀ s r, find s = some r → Keeps h s r.1) (s : Sys)
    (r : Sys × Option Err) (hr : VerifyEnvLoaderVia find h s = some r) :
    Keeps h s r.1 := by
  unfold VerifyEnvLoaderVia at hr
  cases hu : UpdateEnvironmentVariableVia find h testEnvKey testEnvValue s with
  | none => simp [hu] at hr
  | some x =>
    obtain ⟨s1, res⟩ := x
    have k1 : Keeps h s s1 := UpdateEnvironmentVariableVia_keeps h hst find hfind
      testEnvKey testEnvValue (Or.inl rfl) (by decide) s _ hu
    rw [hu] at hr
    cases res with
    | some e =>
      simp only [Option.some.injEq] at hr
      subst hr
      exact k1
    | none =>
      simp only at hr
      split at hr
      · simp only [Option.some.injEq] at hr
        subst hr
        exact k1
      · cases hu2 : UpdateEnvironmentVariableVia find h testEnvKey [] s1 with
        | none => simp [hu2] at hr
        | some y =>
          obtain ⟨s3, res2⟩ := y
          have k2 : Keeps h s1 s3 := UpdateEnvironmentVariableVia_keeps h hst find hfind
            testEnvKey [] (Or.inl rfl) (by simp) s1 _ hu2
          rw [hu2] at hr
          cases res2 <;>
            (simp only [Option.some.injEq] at hr
             subst hr
             exact keeps_trans k1 k2)

/-- The machine `mirrorHost` is steady. -/
theorem mirrorHost_steady : Steady mirrorHost := by
  refine ⟨?_, ?_, ?_⟩
  · intro cmd s
    simp only [mirrorHost]
    split
    · rfl
    · split
      · unfold mirrorReload
        split <;> rfl
      · split <;> rfl
  · intro cmd s
    simp only [mirrorHost]
    split
    · rfl
    · split
      · unfold mirrorReload
        split
        · simp [getenv, List.lookup]
        · rfl
      · split <;> rfl
  · intro filename hc
    have hf : filename = "/opt/pkg/envmanager.go".toList := by
      simp only [mirrorHost, Option.some.injEq] at hc
      exact hc.symm
    subst hf
    decide

/-! ## The configuration file after `UpdateEnvironmentVariable` -/

/-- C1: whenever the configuration file can be read and written, the content
`UpdateEnvironmentVariable(key, value)` writes (the file as `ReloadEnv` then
finds it) has exactly one line starting with `key=`, that line is `key=value`,
and it is the last line; `key` and `value` hold no newline. -/
theorem update_writes_exactly_one_assignment (h : Host) (depth : Nat) (s : Sys)
    (content key value : Str) (hk : '\n' ∉ key) (hv : '\n' ∉ value)
    (hr : readFile (envFilePath h s) s = some content)
    (hl : envFilePath h s ∉ s.locked) :
    ∃ s1 written,
      UpdateEnvironmentVariable h depth key value s
        = confirmUpdate (findEnvLoader h depth) h key value s1 ∧
      readFile (envFilePath h s) s1 = some written ∧
      written = updatedContent key value content ∧
      (splitLines written).countP (fun l => startsWith l (key ++ ['='])) = 1 ∧
      (∀ l ∈ splitLines written,
        startsWith l (key ++ ['=']) = true → l = assignment key value) ∧
      (splitLines written).getLast? = some (assignment key value) := by
  refine ⟨_, _, UpdateEnvironmentVariableVia_of_read _ h key value content s hr hl,
    readFile_writeFile _ _ s _ (writeFile_of_not_locked _ _ s hl), rfl, ?_, ?_, ?_⟩
  · rw [splitLines_updatedContent key value content hk hv, List.countP_append]
    have h0 : List.countP (fun l => startsWith l (key ++ ['=']))
        ((splitLines content).filter
          (fun l => !startsWith l (key ++ ['=']) && decide (l ≠ []))) = 0 := by
      rw [List.countP_eq_zero]
      intro l hl2
      have := (List.mem_filter.mp hl2).2
      simp only [Bool.and_eq_true, Bool.not_eq_true'] at this
      simp [this.1]
    rw [h0]
    simp [List.countP_cons, startsWith_assignment]
  · intro l hl2 hp
    rw [splitLines_updatedContent key value content hk hv] at hl2
    rcases List.mem_append.mp hl2 with hm | hm
    · have := (List.mem_filter.mp hm).2
      simp only [Bool.and_eq_true, Bool.not_eq_true'] at this
      rw [this.1] at hp
      exact absurd hp (by simp)
    · simpa using hm
  · rw [splitLines_updatedContent key value content hk hv]
    simp

/-- Witness of C1 on the machine `workingHost`: the file `A=1`, `K=old`, a
blank line, `B=2`, and the call `UpdateEnvironmentVariable("K", "V")`. -/
theorem update_writes_exactly_one_assignment_witness :
    ∃ s1 written,
      UpdateEnvironmentVariable workingHost 1 "K".toList "V".toList
          (workingSys "A=1\nK=old\n\nB=2\n".toList [])
        = confirmUpdate (findEnvLoader workingHost 1) workingHost "K".toList "V".toList s1 ∧
      readFile (envFilePath workingHost (workingSys "A=1\nK=old\n\nB=2\n".toList [])) s1
        = some written ∧
      written = updatedContent "K".toList "V".toList "A=1\nK=old\n\nB=2\n".toList ∧
      (splitLines written).countP (fun l => startsWith l ("K".toList ++ ['='])) = 1 ∧
      (∀ l ∈ splitLines written,
        startsWith l ("K".toList ++ ['=']) = true → l = assignment "K".toList "V".toList) ∧
      (splitLines written).getLast? = some (assignment "K".toList "V".toList) :=
  update_writes_exactly_one_assignment workingHost 1
    (workingSys "A=1\nK=old\n\nB=2\n".toList []) "A=1\nK=old\n\nB=2\n".toList
    "K".toList "V".toList (by decide) (by decide) (by decide) (by decide)

/-- C2 as stated fails: with a blank line between `A=1` and `B=2`, the lines
written before the final `K=V` are not the original lines without the prefix
`K=`, because the blank line is gone. -/
theorem update_drops_blank_lines :
    (splitLines (updatedContent "K".toList "V".toList "A=1\n\nB=2".toList)).dropLast
      = ["A=1".toList, "B=2".toList] ∧
    (splitLines "A=1\n\nB=2".toList).filter (fun l => !startsWith l ("K".toList ++ ['=']))
      = ["A=1".toList, [], "B=2".toList] ∧
    (splitLines (updatedContent "K".toList "V".toList "A=1\n\nB=2".toList)).dropLast
      ≠ (splitLines "A=1\n\nB=2".toList).filter
          (fun l => !startsWith l ("K".toList ++ ['='])) := by
  decide

/-- C2, amended: whenever the configuration file can be read and written, the
lines of the content `UpdateEnvironmentVariable(key, value)` writes are the
original non-blank lines that do not start with `key=`, verbatim and in their
original order, followed by the line `key=value`. -/
theorem update_keeps_other_nonblank_lines (h : Host) (depth : Nat) (s : Sys)
    (content key value : Str) (hk : '\n' ∉ key) (hv : '\n' ∉ value)
    (hr : readFile (envFilePath h s) s = some content)
    (hl : envFilePath h s ∉ s.locked) :
    ∃ s1 written,
      UpdateEnvironmentVariable h depth key value s
        = confirmUpdate (findEnvLoader h depth) h key value s1 ∧
      readFile (envFilePath h s) s1 = some written ∧
      splitLines written
        = (splitLines content).filter
            (fun l => !startsWith l (key ++ ['=']) && decide (l ≠ []))
          ++ [assignment key value] :=
  ⟨_, _, UpdateEnvironmentVariableVia_of_read _ h key value content s hr hl,
    readFile_writeFile _ _ s _ (writeFile_of_not_locked _ _ s hl),
    splitLines_updatedContent key value content hk hv⟩

/-- Witness of the amended C2 on `workingHost`, for the file of the
counterexample. -/
theorem update_keeps_other_nonblank_lines_witness :
    ∃ s1 written,
      UpdateEnvironmentVariable workingHost 1 "K".toList "V".toList
          (workingSys "A=1\n\nB=2".toList [])
        = confirmUpdate (findEnvLoader workingHost 1) workingHost "K".toList "V".toList s1 ∧
      readFile (envFilePath workingHost (workingSys "A=1\n\nB=2".toList [])) s1
        = some written ∧
      splitLines written
        = (splitLines "A=1\n\nB=2".toList).filter
            (fun l => !startsWith l ("K".toList ++ ['=']) && decide (l ≠ []))
          ++ [assignment "K".toList "V".toList] :=
  update_keeps_other_nonblank_lines workingHost 1 (workingSys "A=1\n\nB=2".toList [])
    "A=1\n\nB=2".toList "K".toList "V".toList (by decide) (by decide) (by decide) (by decide)

/-! ## The verifier -/

/-- C5: `verifyEnvLoaderComponent(reference)` succeeds exactly when the child
process `reference ver` starts, exits with status 0 and writes at least one
byte to standard output; a component that exits 0 with empty output is
rejected, and so is one that cannot be started. -/
theorem verifyEnvLoaderComponent_ok_iff (h : Host) (reference : Str) (s : Sys) :
    ((verifyEnvLoaderComponent h reference s).2 = none ↔
      ∃ out, (h.exec [reference, verArg] s).2 = .exited 0 out ∧ 0 < out.length) ∧
    ((h.exec [reference, verArg] s).2 = .exited 0 [] →
      (verifyEnvLoaderComponent h reference s).2 = some .noVersion) ∧
    ((h.exec [reference, verArg] s).2 = .startFailed →
      (verifyEnvLoaderComponent h reference s).2 = some .verifyFailed) := by
  unfold verifyEnvLoaderComponent spawn
  generalize h.exec [reference, verArg] s = r
  rcases r with ⟨s1, r⟩
  cases r with
  | startFailed => simp [ExecResult.succeeded]
  | exited code out =>
    cases code with
    | zero =>
      cases out with
      | nil => simp [ExecResult.succeeded, ExecResult.output]
      | cons c cs => simp [ExecResult.succeeded, ExecResult.output]
    | succ n => simp [ExecResult.succeeded]

/-- Witness of C5 on the shadowed bundled machine: the bare name reaches an
executable that exits 0 and prints nothing, and `/nonexistent` cannot be
started. -/
theorem verifyEnvLoaderComponent_ok_iff_witness :
    (verifyEnvLoaderComponent (bundledHost true 0) envLoaderName
        (bundledSys "/broken:/usr/bin".toList [])).2 = some .noVersion ∧
    (verifyEnvLoaderComponent (bundledHost true 0) "/nonexistent".toList
        (bundledSys "/broken:/usr/bin".toList [])).2 = some .verifyFailed :=
  ⟨(verifyEnvLoaderComponent_ok_iff (bundledHost true 0) envLoaderName
      (bundledSys "/broken:/usr/bin".toList [])).2.1 (by decide),
   (verifyEnvLoaderComponent_ok_iff (bundledHost true 0) "/nonexistent".toList
      (bundledSys "/broken:/usr/bin".toList [])).2.2 (by decide)⟩

/-! ## The path registrar -/

/-- C8: calling `updateSystemPath(D)` twice leaves the same state, and so the
same `PATH`, as calling it once; when `D` already occurs in `PATH` the value is
unchanged; otherwise, `D` and the old value being free of NUL bytes as every
directory name and environment value is, the call succeeds and `PATH` becomes
the old value, `:` and `D`. -/
theorem updateSystemPath_idempotent (D : Str) (s : Sys) :
    (updateSystemPath D (updateSystemPath D s).1).1 = (updateSystemPath D s).1 ∧
    getenv pathVar (updateSystemPath D (updateSystemPath D s).1).1
      = getenv pathVar (updateSystemPath D s).1 ∧
    (contains (getenv pathVar s) D = true →
      getenv pathVar (updateSystemPath D s).1 = getenv pathVar s) ∧
    (contains (getenv pathVar s) D = false →
      Char.ofNat 0 ∉ getenv pathVar s → Char.ofNat 0 ∉ D →
      (updateSystemPath D s).2 = none ∧
      getenv pathVar (updateSystemPath D s).1 = getenv pathVar s ++ ':' :: D) := by
  have hidem : (updateSystemPath D (updateSystemPath D s).1).1 = (updateSystemPath D s).1 := by
    rcases updateSystemPath_cases D s with ⟨_, he⟩ | ⟨_, _, he⟩ | ⟨_, s1, hset, he⟩
    · rw [he]; simp only; rw [he]
    · rw [he]; simp only; rw [he]
    · rw [he]; simp only
      have hc : contains (getenv pathVar s1) D = true := by
        rw [getenv_setenv _ _ s s1 hset]; exact contains_path_append _ D
      simp [updateSystemPath, hc]
  refine ⟨hidem, by rw [hidem], ?_, ?_⟩
  · intro hc
    simp [updateSystemPath, hc]
  · intro hc hp hd
    have hset : setenv pathVar (getenv pathVar s ++ ':' :: D) s
        = some { s with env := (pathVar, getenv pathVar s ++ ':' :: D) :: s.env } := by
      unfold setenv
      rw [if_neg]
      simp only [List.mem_append, List.mem_cons, not_or]
      exact ⟨by decide, by decide, by decide, hp, by decide, hd⟩
    rcases updateSystemPath_cases D s with ⟨hc2, _⟩ | ⟨_, hn, _⟩ | ⟨_, s1, hs1, he⟩
    · rw [hc] at hc2; exact absurd hc2 (by simp)
    · rw [hset] at hn; exact absurd hn (by simp)
    · rw [he]
      exact ⟨rfl, getenv_setenv _ _ s s1 hs1⟩

/-- Witness of C8: the two cases of `TestUpdateSystemPath`. -/
theorem updateSystemPath_idempotent_witness :
    getenv pathVar (updateSystemPath "/opt/myapp/bin".toList
        (bundledSys "/usr/local/bin:/opt/myapp/bin:/usr/bin".toList [])).1
      = "/usr/local/bin:/opt/myapp/bin:/usr/bin".toList ∧
    getenv pathVar (updateSystemPath "/opt/myapp/bin".toList
        (bundledSys "/usr/local/bin:/usr/bin".toList [])).1
      = "/usr/local/bin:/usr/bin:/opt/myapp/bin".toList :=
  ⟨(updateSystemPath_idempotent "/opt/myapp/bin".toList
      (bundledSys "/usr/local/bin:/opt/myapp/bin:/usr/bin".toList [])).2.2.1 (by decide),
   ((updateSystemPath_idempotent "/opt/myapp/bin".toList
      (bundledSys "/usr/local/bin:/usr/bin".toList [])).2.2.2
        (by decide) (by decide) (by decide)).2⟩

/-! ## Success and the live environment -/

/-- C4 as stated fails for `RemoveEnvironmentVariable`: on the machine with a
working helper, with `C=stale` in the environment and no line `C=` in the file
(`A=1`, `B=2`), `RemoveEnvironmentVariable("C")` returns no error and reading
`C` from the environment on return yields `stale`, not the empty string. -/
theorem remove_succeeds_with_variable_present :
    ∃ s2, RemoveEnvironmentVariable workingHost 1 "C".toList
        (workingSys "A=1\nB=2".toList [("C".toList, "stale".toList)]) = some (s2, none) ∧
      getenv "C".toList s2 = "stale".toList ∧ getenv "C".toList s2 ≠ [] :=
  ⟨Outcome.state (RemoveEnvironmentVariable workingHost 1 "C".toList
      (workingSys "A=1\nB=2".toList [("C".toList, "stale".toList)]))
      (workingSys [] []), by decide, by decide, by decide⟩

/-- C4, amended: if `UpdateEnvironmentVariable(key, value)` returns no error,
reading `key` from the environment on return yields `value`; if
`RemoveEnvironmentVariable(key)` returns no error, then either reading `key`
from the environment on return yields the empty string, or the call returned
right after its self-check because no line of the file started with `key=`
(in which case the environment was not consulted). -/
theorem success_reflects_environment (h : Host) (depth : Nat) (key value : Str)
    (s s2 : Sys) :
    (UpdateEnvironmentVariable h depth key value s = some (s2, none) →
      getenv key s2 = value) ∧
    (RemoveEnvironmentVariable h depth key s = some (s2, none) →
      getenv key s2 = [] ∨
      (VerifyEnvLoader h depth s = some (s2, none) ∧
        ∃ content, readFile (envFilePath h s2) s2 = some content ∧
          ∀ l ∈ splitLines content, startsWith l (key ++ ['=']) = false)) := by
  constructor
  · intro hu
    obtain ⟨_, _, _, _, _, hg⟩ :=
      UpdateEnvironmentVariableVia_ok (findEnvLoader h depth) h key value s s2 hu
    exact hg
  · intro hrm
    obtain ⟨s1, content, hv, hr, hcase⟩ :=
      RemoveEnvironmentVariableVia_ok (findEnvLoader h depth) h key s s2 hrm
    rcases hcase with ⟨hf, he⟩ | ⟨_, _, _, _, hg⟩
    · subst he
      refine Or.inr ⟨hv, content, hr, ?_⟩
      rw [scanLines_snd] at hf
      intro l hl
      have := List.any_eq_false.mp hf l hl
      simpa using this
    · exact Or.inl hg

/-- Witness of the amended C4 on the machine with a working helper: a
successful `UpdateEnvironmentVariable("NEW", "x")` and a successful
`RemoveEnvironmentVariable("C")`. -/
theorem success_reflects_environment_witness :
    getenv "NEW".toList
        (Outcome.state (UpdateEnvironmentVariable workingHost 1 "NEW".toList "x".toList
          (workingSys "A=1\nB=2\n".toList [])) (workingSys [] [])) = "x".toList ∧
    (getenv "C".toList
        (Outcome.state (RemoveEnvironmentVariable workingHost 1 "C".toList
          (workingSys "A=1\nB=2".toList [])) (workingSys [] [])) = [] ∨
      (VerifyEnvLoader workingHost 1 (workingSys "A=1\nB=2".toList [])
          = some (Outcome.state (RemoveEnvironmentVariable workingHost 1 "C".toList
              (workingSys "A=1\nB=2".toList [])) (workingSys [] []), none) ∧
        ∃ content,
          readFile (envFilePath workingHost
              (Outcome.state (RemoveEnvironmentVariable workingHost 1 "C".toList
                (workingSys "A=1\nB=2".toList [])) (workingSys [] [])))
            (Outcome.state (RemoveEnvironmentVariable workingHost 1 "C".toList
              (workingSys "A=1\nB=2".toList [])) (workingSys [] [])) = some content ∧
          ∀ l ∈ splitLines content, startsWith l ("C".toList ++ ['=']) = false)) :=
  ⟨(success_reflects_environment workingHost 1 "NEW".toList "x".toList
      (workingSys "A=1\nB=2\n".toList []) _).1 (by decide),
   (success_reflects_environment workingHost 1 "C".toList []
      (workingSys "A=1\nB=2".toList []) _).2 (by decide)⟩

/-! ## `RemoveEnvironmentVariable` and the configuration file -/

/-- C3 as stated fails, by what the self-check that runs first does by design.
With a working helper and the newline-terminated file `A=1`, `B=2` (the form
of the file in the package's tests), `RemoveEnvironmentVariable("C")` returns
no error, yet the file is not as it was: even leaving aside the lines of the
package's own keys, its lines were `A=1`, `B=2` and a final empty piece and
are now `A=1`, `B=2`, the self-check's `UpdateEnvironmentVariable` having
dropped the empty piece (line 188).  Without a helper, on the file `A=1`,
`B=2`, the call does not return success although no line starts with `C=`: it
returns the error of line 246, and the file has gained the sentinel line that
line 224 writes. -/
theorem remove_changes_more_than_its_entry :
    (∃ s2, RemoveEnvironmentVariable workingHost 1 "C".toList
          (workingSys "A=1\nB=2\n".toList []) = some (s2, none) ∧
      (splitLines "A=1\nB=2\n".toList).filter (fun l => !ownLine l)
        = ["A=1".toList, "B=2".toList, []] ∧
      (readFile "/srv/app/.env".toList s2).map
          (fun content => (splitLines content).filter (fun l => !ownLine l))
        = some ["A=1".toList, "B=2".toList]) ∧
    (∃ s2, RemoveEnvironmentVariable (bundledHost false 0) 1 "C".toList noHelperSys
        = some (s2, some .loaderCheckFailed) ∧
      readFile "/srv/app/.env".toList noHelperSys = some "A=1\nB=2".toList ∧
      readFile "/srv/app/.env".toList s2
        = some "A=1\nB=2\ntestenv=test_value_123".toList) :=
  ⟨⟨Outcome.state (RemoveEnvironmentVariable workingHost 1 "C".toList
        (workingSys "A=1\nB=2\n".toList [])) twoLineSys,
      by decide, by decide, by decide⟩,
   ⟨Outcome.state (RemoveEnvironmentVariable (bundledHost false 0) 1 "C".toList noHelperSys)
        noHelperSys,
      by decide, by decide, by decide⟩⟩

/-- C3, amended.  `RemoveEnvironmentVariable(key)` first runs `VerifyEnvLoader`
and returns an error, in the state the self-check left, when that fails; a
self-check that passes has begun by writing the sentinel
`testenv=test_value_123` to the configuration file through
`UpdateEnvironmentVariable`.  After a successful self-check, with `content`
what the file then holds: if no line starts with `key=`, the call returns
success in the very state the self-check left, so without a write, reload or
child process of its own; if some line does and the file can be written, the
call replaces the content of the configuration file by the non-blank lines
that do not start with `key=`, in order and joined by newlines, changes
nothing else in the state, and goes on to reload and read `key` back.  On a
machine whose child processes leave the files and `ollama_scannerBaseDir`
alone, whenever the call returns success, every file other than the
configuration file is as it was before the call, and the configuration file,
leaving aside the lines of the package's own keys `testenv` and
`aspnmy_envloaderDir`, holds exactly the non-blank lines it held before the
call that do not start with `key=`, in their order.  For the content `A=1`,
`B=2` and the key `A` what is written is exactly `B=2`. -/
theorem remove_after_self_check (h : Host) (depth : Nat) (key : Str) (s : Sys) :
    (∀ s1 e, VerifyEnvLoader h depth s = some (s1, some e) →
      RemoveEnvironmentVariable h depth key s = some (s1, some .loaderCheckFailed)) ∧
    (∀ s1, VerifyEnvLoader h depth s = some (s1, none) →
      ∃ content sa sb, readFile (envFilePath h s) s = some content ∧
        writeFile (envFilePath h s) (updatedContent testEnvKey testEnvValue content) s
          = some sa ∧
        ReloadEnv h depth sa = some (sb, none) ∧ getenv testEnvKey sb = testEnvValue) ∧
    (∀ s1 content, VerifyEnvLoader h depth s = some (s1, none) →
      readFile (envFilePath h s1) s1 = some content →
      (∀ l ∈ splitLines content, startsWith l (key ++ ['=']) = false) →
      RemoveEnvironmentVariable h depth key s = some (s1, none)) ∧
    (∀ s1 content, VerifyEnvLoader h depth s = some (s1, none) →
      readFile (envFilePath h s1) s1 = some content →
      (∃ l ∈ splitLines content, startsWith l (key ++ ['=']) = true) →
      envFilePath h s1 ∉ s1.locked →
      RemoveEnvironmentVariable h depth key s
        = confirmRemoval (findEnvLoader h depth) h key
            { s1 with files := (envFilePath h s1,
                joinLines ((splitLines content).filter
                  (fun l => !startsWith l (key ++ ['=']) && decide (l ≠ [])))) :: s1.files }) ∧
    (Steady h → ∀ s2, RemoveEnvironmentVariable h depth key s = some (s2, none) →
      ∃ before after, readFile (envFilePath h s) s = some before ∧
        readFile (envFilePath h s) s2 = some after ∧
        userLines after
          = (userLines before).filter (fun l => !startsWith l (key ++ ['='])) ∧
        ∀ p, p ≠ envFilePath h s → readFile p s2 = readFile p s) ∧
    removedContent "A".toList "A=1\nB=2".toList = "B=2".toList := by
  refine ⟨?_, ?_, ?_, ?_, ?_, by decide⟩
  · intro s1 e hv
    unfold RemoveEnvironmentVariable RemoveEnvironmentVariableVia
    unfold VerifyEnvLoader at hv
    rw [hv]
  · intro s1 hv
    obtain ⟨sb, hu, _⟩ := VerifyEnvLoaderVia_ok _ h s s1 hv
    obtain ⟨content, sa, hr, hw, hre, hg⟩ :=
      UpdateEnvironmentVariableVia_ok _ h _ _ s sb hu
    exact ⟨content, sa, sb, hr, hw, hre, hg⟩
  · intro s1 content hv hr hno
    unfold RemoveEnvironmentVariable RemoveEnvironmentVariableVia
    unfold VerifyEnvLoader at hv
    rw [hv]
    simp only [hr]
    have hf : (scanLines key (splitLines content)).2 = false := by
      rw [scanLines_snd, List.any_eq_false]
      intro l hl
      simp [hno l hl]
    simp [hf]
  · intro s1 content hv hr hex hl
    unfold RemoveEnvironmentVariable RemoveEnvironmentVariableVia
    unfold VerifyEnvLoader at hv
    rw [hv]
    simp only [hr]
    have hf : (scanLines key (splitLines content)).2 = true := by
      rw [scanLines_snd, List.any_eq_true]
      exact hex
    simp [hf, writeFile_of_not_locked _ _ _ hl, removedContent, scanLines_fst]
  · intro hst s2 hrm
    obtain ⟨s1, c1, hv, hr1, hcase⟩ :=
      RemoveEnvironmentVariableVia_ok (findEnvLoader h depth) h key s s2 hrm
    have hfind := findEnvLoader_keeps h hst depth
    have kv : Keeps h s s1 := VerifyEnvLoaderVia_keeps h hst _ hfind s _ hv
    obtain ⟨sb, hu, _⟩ := VerifyEnvLoaderVia_ok _ h s s1 hv
    obtain ⟨before, _, hbefore, _⟩ := UpdateEnvironmentVariableVia_ok _ h _ _ s sb hu
    have hp : envFilePath h s1 = envFilePath h s := envFilePath_of_base h s s1 kv.1
    rw [hp] at hr1 hcase
    have hlines : userLines c1 = userLines before := by
      have := kv.2.1
      rw [hr1, hbefore] at this
      simpa using this
    rcases hcase with ⟨hf, he⟩ | ⟨_, sw, hw, hre, _⟩
    · subst he
      refine ⟨before, c1, hbefore, hr1, ?_, kv.2.2⟩
      rw [← hlines]
      symm
      rw [List.filter_eq_self]
      intro l hl
      rw [scanLines_snd] at hf
      have hmem : l ∈ splitLines c1 := (List.mem_filter.mp hl).1
      have := List.any_eq_false.mp hf l hmem
      simpa using this
    · have kr : Keeps h sw s2 := ReloadEnvVia_keeps h hst _ hfind sw _ hre
      have hsw := writeFile_shape _ _ s1 sw hw
      have hbw : getenv baseDirVar sw = getenv baseDirVar s1 := by rw [hsw]; rfl
      have hpw : envFilePath h sw = envFilePath h s :=
        (envFilePath_of_base h s1 sw hbw).trans hp
      have hrw : readFile (envFilePath h s) sw = some (removedContent key c1) :=
        readFile_writeFile _ _ s1 sw hw
      have h2 := kr.2.1
      rw [hpw, hrw] at h2
      cases hafter : readFile (envFilePath h s) s2 with
      | none => rw [hafter] at h2; simp at h2
      | some after =>
        rw [hafter] at h2
        simp only [Option.map_some', Option.some.injEq] at h2
        refine ⟨before, after, hbefore, rfl, ?_, ?_⟩
        · rw [h2, userLines_removedContent, hlines]
        · intro p hne
          have h3 := kr.2.2 p (by rw [hpw]; exact hne)
          rw [h3, ← kv.2.2 p hne, hsw]
          have hb : (p == envFilePath h s) = false := by simpa using hne
          simp only [readFile, List.lookup, hb]

/-- Witness of the amended C3: a failed self-check on a machine without helper
and without configuration file; on the machine with a working helper and the
file `A=1`, `B=2`, the sentinel write of a passing self-check, the key `C` (no
line) and the key `A` (a line); and on the machine whose helper mirrors the
file, a successful `RemoveEnvironmentVariable("A")`, after which the user
lines are `B=2`. -/
theorem remove_after_self_check_witness :
    RemoveEnvironmentVariable (bundledHost false 0) 1 "A".toList (bundledSys "/usr/bin".toList [])
      = some (bundledSys "/usr/bin".toList [], some .loaderCheckFailed) ∧
    (∃ content sa sb, readFile (envFilePath workingHost twoLineSys) twoLineSys = some content ∧
      writeFile (envFilePath workingHost twoLineSys)
        (updatedContent testEnvKey testEnvValue content) twoLineSys = some sa ∧
      ReloadEnv workingHost 1 sa = some (sb, none) ∧ getenv testEnvKey sb = testEnvValue) ∧
    RemoveEnvironmentVariable workingHost 1 "C".toList twoLineSys
      = some (twoLineChecked, none) ∧
    RemoveEnvironmentVariable workingHost 1 "A".toList twoLineSys
      = confirmRemoval (findEnvLoader workingHost 1) workingHost "A".toList
          { twoLineChecked with files := (envFilePath workingHost twoLineChecked,
              joinLines ((splitLines "A=1\nB=2\ntestenv=".toList).filter
                (fun l => !startsWith l ("A".toList ++ ['=']) && decide (l ≠ []))))
              :: twoLineChecked.files } ∧
    (∃ before after, readFile (envFilePath mirrorHost twoLineSys) twoLineSys = some before ∧
      readFile (envFilePath mirrorHost twoLineSys)
        (Outcome.state (RemoveEnvironmentVariable mirrorHost 1 "A".toList twoLineSys)
          twoLineSys) = some after ∧
      userLines after
        = (userLines before).filter (fun l => !startsWith l ("A".toList ++ ['='])) ∧
      ∀ p, p ≠ envFilePath mirrorHost twoLineSys →
        readFile p (Outcome.state (RemoveEnvironmentVariable mirrorHost 1 "A".toList
          twoLineSys) twoLineSys) = readFile p twoLineSys) ∧
    (readFile "/srv/app/.env".toList
        (Outcome.state (RemoveEnvironmentVariable mirrorHost 1 "A".toList twoLineSys)
          twoLineSys)).map userLines = some ["B=2".toList] :=
  ⟨(remove_after_self_check (bundledHost false 0) 1 "A".toList
      (bundledSys "/usr/bin".toList [])).1 _ .testWriteFailed (by decide),
   (remove_after_self_check workingHost 1 "C".toList twoLineSys).2.1
      twoLineChecked (by decide),
   (remove_after_self_check workingHost 1 "C".toList twoLineSys).2.2.1
      twoLineChecked "A=1\nB=2\ntestenv=".toList (by decide) (by decide) (by decide),
   (remove_after_self_check workingHost 1 "A".toList twoLineSys).2.2.2.1
      twoLineChecked "A=1\nB=2\ntestenv=".toList (by decide) (by decide) (by decide)
      (by decide),
   (remove_after_self_check mirrorHost 1 "A".toList twoLineSys).2.2.2.2.1
      mirrorHost_steady _ (by decide),
   by decide⟩

/-! ## The locator: self-repair -/

/-- C9 as stated fails for a script that exits non-zero: on the bundled
machine without local copy, whose script installs the copy and then exits 1,
`findEnvLoader` runs the script and returns the not-found error, although the
candidate file then exists and verifies. -/
theorem repair_exit_status_is_fatal :
    ∃ s2, findEnvLoader (bundledHost false 1) 1 missingSys = some (s2, .error .notFound) ∧
      [bashName, repairScript] ∈ s2.spawned ∧
      stat localComponent s2 = true ∧
      (verifyEnvLoaderComponent (bundledHost false 1) localComponent s2).2 = none :=
  ⟨Outcome.state (findEnvLoader (bundledHost false 1) 1 missingSys) missingSys,
    by decide, by decide, by decide, by decide⟩

/-- C9, amended: in every state in which the earlier tiers of `findEnvLoader`
did not return (the bare-name tier fell through and the local tier fell
through, leaving the state `s2`) and the self-repair script exists,
`findEnvLoader` runs the script, and re-checks the candidate path only when
the script exited 0: if then the candidate exists and verifies, it returns the
candidate path; if the script could not be started or exited non-zero, it
returns the not-found error with the script the last process spawned. -/
theorem repair_rechecks_after_zero_exit (h : Host) (depth : Nat) (s s2 : Sys)
    (filename : Str)
    (htier1 : (if (verifyEnvLoaderName h envLoaderName s).2 = none
        then h.lookPath envLoaderName (verifyEnvLoaderName h envLoaderName s).1
        else none) = none)
    (hcaller : h.caller = some filename)
    (htier2 : findEnvLoaderLocal (findEnvLoader h depth) h
        (h.join (h.dir filename) localPath)
        (verifyEnvLoaderName h envLoaderName s).1 = some (s2, false))
    (hscript : stat (h.join (h.dir filename) updateScriptPath) s2 = true) :
    ((spawn h [bashName, h.join (h.dir filename) updateScriptPath]
          s2).2.succeeded = true →
      stat (h.join (h.dir filename) localPath)
        (spawn h [bashName, h.join (h.dir filename) updateScriptPath]
          s2).1 = true →
      (verifyEnvLoaderComponent h (h.join (h.dir filename) localPath)
        (spawn h [bashName, h.join (h.dir filename) updateScriptPath]
          s2).1).2 = none →
      findEnvLoader h (depth + 1) s
        = some ((verifyEnvLoaderComponent h (h.join (h.dir filename) localPath)
            (spawn h [bashName, h.join (h.dir filename) updateScriptPath]
              s2).1).1,
          .ok (h.join (h.dir filename) localPath))) ∧
    ((spawn h [bashName, h.join (h.dir filename) updateScriptPath]
          s2).2.succeeded = false →
      findEnvLoader h (depth + 1) s
        = some ((spawn h [bashName,
            h.join (h.dir filename) updateScriptPath] s2).1,
          .error .notFound) ∧
      (spawn h [bashName, h.join (h.dir filename) updateScriptPath]
        s2).1.spawned
        = s2.spawned ++ [[bashName,
            h.join (h.dir filename) updateScriptPath]]) := by
  have hstep : findEnvLoader h (depth + 1) s
      = some (findEnvLoaderRepair h (h.dir filename) (h.join (h.dir filename) localPath) s2) := by
    simp only [findEnvLoader, findEnvLoaderStep, htier1, hcaller, htier2]
  constructor
  · intro hok hst hv
    rw [hstep]
    simp [findEnvLoaderRepair, hscript, hok, hst, hv]
  · intro hfail
    rw [hstep]
    refine ⟨?_, rfl⟩
    simp [findEnvLoaderRepair, hscript, hfail]

/-- Witness of the amended C9 on the bundled machine without local copy: the
script that exits 0 (the candidate is returned) and the script that exits 1. -/
theorem repair_rechecks_after_zero_exit_witness :
    findEnvLoader (bundledHost false 0) 1 missingSys
      = some ((verifyEnvLoaderComponent (bundledHost false 0) localComponent
          (spawn (bundledHost false 0) [bashName, repairScript]
            (verifyEnvLoaderName (bundledHost false 0) envLoaderName missingSys).1).1).1,
        .ok localComponent) ∧
    findEnvLoader (bundledHost false 1) 1 missingSys
      = some ((spawn (bundledHost false 1) [bashName, repairScript]
          (verifyEnvLoaderName (bundledHost false 1) envLoaderName missingSys).1).1,
        .error .notFound) :=
  ⟨(repair_rechecks_after_zero_exit (bundledHost false 0) 0 missingSys
      (verifyEnvLoaderName (bundledHost false 0) envLoaderName missingSys).1
      "/opt/pkg/envmanager.go".toList (by decide) rfl (by decide) (by decide)).1
      (by decide) (by decide) (by decide),
   ((repair_rechecks_after_zero_exit (bundledHost false 1) 0 missingSys
      (verifyEnvLoaderName (bundledHost false 1) envLoaderName missingSys).1
      "/opt/pkg/envmanager.go".toList (by decide) rfl (by decide) (by decide)).2
      (by decide)).1⟩

/-! ## The locator: the local copy -/

/-- C6 as stated fails: on the bundled machine without configuration file the
bare name is not resolvable and the local copy exists and verifies, yet
persisting the directory fails, `findEnvLoader` falls through to the
self-repair tier and runs the script; it then returns the not-found error when
the script exits 1 (and the local path only after the script, when it exits
0). -/
theorem local_copy_needs_persisting :
    (bundledHost false 1).lookPath envLoaderName noConfigSys = none ∧
    (verifyEnvLoaderName (bundledHost false 1) envLoaderName noConfigSys).2
      = some .verifyFailed ∧
    (bundledHost false 1).join ((bundledHost false 1).dir "/opt/pkg/envmanager.go".toList)
      localPath = localComponent ∧
    stat localComponent noConfigSys = true ∧
    (verifyEnvLoaderComponent (bundledHost false 1) localComponent noConfigSys).2 = none ∧
    (∃ s2, findEnvLoader (bundledHost false 1) 1 noConfigSys = some (s2, .error .notFound) ∧
      [bashName, repairScript] ∈ s2.spawned) ∧
    (∃ s2, findEnvLoader (bundledHost false 0) 1 noConfigSys = some (s2, .ok localComponent) ∧
      [bashName, repairScript] ∈ s2.spawned) :=
  ⟨by decide, by decide, by decide, by decide, by decide,
    ⟨Outcome.state (findEnvLoader (bundledHost false 1) 1 noConfigSys) noConfigSys,
      by decide, by decide⟩,
    ⟨Outcome.state (findEnvLoader (bundledHost false 0) 1 noConfigSys) noConfigSys,
      by decide, by decide⟩⟩

/-- C6, amended: in every state in which the bare-name tier falls through (the
bare name does not verify, or `exec.LookPath` does not resolve it) and a file
exists at the local candidate path and verifies, `findEnvLoader` registers the
directory with `updateSystemPath` and persists it with
`UpdateEnvironmentVariable(aspnmy_envloaderDir, dir)`.  When both succeed it
returns the local path in the state `UpdateEnvironmentVariable` left (its own
self-repair tier is not entered), the directory occurred in `PATH` once
registered, and `aspnmy_envloaderDir` reads back as the directory.  When either
fails, it goes on with the self-repair tier. -/
theorem local_copy_returned_when_persisted (h : Host) (depth : Nat) (s s3 : Sys)
    (filename : Str)
    (htier1 : (verifyEnvLoaderName h envLoaderName s).2 ≠ none ∨
      h.lookPath envLoaderName (verifyEnvLoaderName h envLoaderName s).1 = none)
    (hcaller : h.caller = some filename)
    (hstat : stat (h.join (h.dir filename) localPath)
      (verifyEnvLoaderName h envLoaderName s).1 = true)
    (hver : (verifyEnvLoaderComponent h (h.join (h.dir filename) localPath)
      (verifyEnvLoaderName h envLoaderName s).1).2 = none) :
    ((updateSystemPath (h.dir (h.join (h.dir filename) localPath))
        (verifyEnvLoaderComponent h (h.join (h.dir filename) localPath)
          (verifyEnvLoaderName h envLoaderName s).1).1).2 = none →
      UpdateEnvironmentVariable h depth envLoaderDirKey
        (h.dir (h.join (h.dir filename) localPath))
        (updateSystemPath (h.dir (h.join (h.dir filename) localPath))
          (verifyEnvLoaderComponent h (h.join (h.dir filename) localPath)
            (verifyEnvLoaderName h envLoaderName s).1).1).1 = some (s3, none) →
      findEnvLoader h (depth + 1) s = some (s3, .ok (h.join (h.dir filename) localPath)) ∧
      contains (getenv pathVar
        (updateSystemPath (h.dir (h.join (h.dir filename) localPath))
          (verifyEnvLoaderComponent h (h.join (h.dir filename) localPath)
            (verifyEnvLoaderName h envLoaderName s).1).1).1)
        (h.dir (h.join (h.dir filename) localPath)) = true ∧
      getenv envLoaderDirKey s3 = h.dir (h.join (h.dir filename) localPath)) ∧
    ((updateSystemPath (h.dir (h.join (h.dir filename) localPath))
        (verifyEnvLoaderComponent h (h.join (h.dir filename) localPath)
          (verifyEnvLoaderName h envLoaderName s).1).1).2 = none →
      ∀ e, UpdateEnvironmentVariable h depth envLoaderDirKey
        (h.dir (h.join (h.dir filename) localPath))
        (updateSystemPath (h.dir (h.join (h.dir filename) localPath))
          (verifyEnvLoaderComponent h (h.join (h.dir filename) localPath)
            (verifyEnvLoaderName h envLoaderName s).1).1).1 = some (s3, some e) →
      findEnvLoader h (depth + 1) s
        = some (findEnvLoaderRepair h (h.dir filename)
            (h.join (h.dir filename) localPath) s3)) ∧
    ((updateSystemPath (h.dir (h.join (h.dir filename) localPath))
        (verifyEnvLoaderComponent h (h.join (h.dir filename) localPath)
          (verifyEnvLoaderName h envLoaderName s).1).1).2 ≠ none →
      findEnvLoader h (depth + 1) s
        = some (findEnvLoaderRepair h (h.dir filename)
            (h.join (h.dir filename) localPath)
            (updateSystemPath (h.dir (h.join (h.dir filename) localPath))
              (verifyEnvLoaderComponent h (h.join (h.dir filename) localPath)
                (verifyEnvLoaderName h envLoaderName s).1).1).1)) := by
  have h1 : (if (verifyEnvLoaderName h envLoaderName s).2 = none
      then h.lookPath envLoaderName (verifyEnvLoaderName h envLoaderName s).1
      else none) = none := by
    rcases htier1 with hn | hn
    · simp [hn]
    · simp [hn]
  refine ⟨?_, ?_, ?_⟩
  · intro hu hup
    refine ⟨?_, contains_of_updateSystemPath _ _ hu, ?_⟩
    · unfold UpdateEnvironmentVariable at hup
      simp only [findEnvLoader, findEnvLoaderStep, h1, hcaller, findEnvLoaderLocal, hstat,
        hver, hu, if_true, hup]
    · obtain ⟨_, _, _, _, _, hg⟩ :=
        UpdateEnvironmentVariableVia_ok (findEnvLoader h depth) h _ _ _ s3 hup
      exact hg
  · intro hu e hup
    unfold UpdateEnvironmentVariable at hup
    simp only [findEnvLoader, findEnvLoaderStep, h1, hcaller, findEnvLoaderLocal, hstat,
      hver, hu, if_true, hup]
  · intro hu
    simp only [findEnvLoader, findEnvLoaderStep, h1, hcaller, findEnvLoaderLocal, hstat,
      hver, hu, if_true, if_false]

/-- Witness of the amended C6 on the bundled machine before first use: the
local copy is returned after two activations of `findEnvLoader`, with
`/opt/pkg/env_loader` registered and persisted and the script not run; on the
machine without configuration file the persisting step fails and the
self-repair tier takes over; and so it does when `os.Setenv` refuses the new
`PATH`. -/
theorem local_copy_returned_when_persisted_witness :
    (findEnvLoader (bundledHost false 0) 2 freshSys
        = some (Outcome.state (findEnvLoader (bundledHost false 0) 2 freshSys) freshSys,
          .ok localComponent) ∧
      contains (getenv pathVar
        (updateSystemPath localDir
          (verifyEnvLoaderComponent (bundledHost false 0) localComponent
            (verifyEnvLoaderName (bundledHost false 0) envLoaderName freshSys).1).1).1)
        localDir = true ∧
      getenv envLoaderDirKey
        (Outcome.state (findEnvLoader (bundledHost false 0) 2 freshSys) freshSys)
        = localDir) ∧
    [bashName, repairScript] ∉
      (Outcome.state (findEnvLoader (bundledHost false 0) 2 freshSys) freshSys).spawned ∧
    findEnvLoader (bundledHost false 1) 1 noConfigSys
      = some (findEnvLoaderRepair (bundledHost false 1) "/opt/pkg".toList localComponent
          (updateSystemPath localDir
            (verifyEnvLoaderComponent (bundledHost false 1) localComponent
              (verifyEnvLoaderName (bundledHost false 1) envLoaderName
                noConfigSys).1).1).1) ∧
    findEnvLoader (bundledHost false 0) 1 nulPathSys
      = some (findEnvLoaderRepair (bundledHost false 0) "/opt/pkg".toList localComponent
          (verifyEnvLoaderComponent (bundledHost false 0) localComponent
            (verifyEnvLoaderName (bundledHost false 0) envLoaderName nulPathSys).1).1) :=
  ⟨(local_copy_returned_when_persisted (bundledHost false 0) 1 freshSys
      (Outcome.state (findEnvLoader (bundledHost false 0) 2 freshSys) freshSys)
      "/opt/pkg/envmanager.go".toList (by decide) rfl (by decide) (by decide)).1
      (by decide) (by decide),
   by decide,
   (local_copy_returned_when_persisted (bundledHost false 1) 0 noConfigSys
      (updateSystemPath localDir
        (verifyEnvLoaderComponent (bundledHost false 1) localComponent
          (verifyEnvLoaderName (bundledHost false 1) envLoaderName noConfigSys).1).1).1
      "/opt/pkg/envmanager.go".toList (by decide) rfl (by decide) (by decide)).2.1
      (by decide) .readFailed (by decide),
   (local_copy_returned_when_persisted (bundledHost false 0) 0 nulPathSys nulPathSys
      "/opt/pkg/envmanager.go".toList (by decide) rfl (by decide) (by decide)).2.2
      (by decide)⟩

/-! ## The locator: what a returned path has recorded -/

/-- C7 as stated fails.  Bare-name tier: on the machine with the helper
installed system-wide, `findEnvLoader` returns
`/usr/local/bin/aspnmy_envloader` while `aspnmy_envloaderDir` is unset and the
configuration file still holds only `A=1`.  Self-repair tier: on the bundled
machine without local copy, `findEnvLoader` returns the local path after the
script ran, while `PATH`, the configuration file and `aspnmy_envloaderDir` are
as they were. -/
theorem returned_path_not_recorded :
    (∃ s2, findEnvLoader workingHost 1 (workingSys "A=1".toList [])
        = some (s2, .ok installedPath) ∧
      getenv envLoaderDirKey s2 = [] ∧
      getenv envLoaderDirKey s2 ≠ workingHost.dir installedPath ∧
      readFile "/srv/app/.env".toList s2 = some "A=1".toList) ∧
    (∃ s2, findEnvLoader (bundledHost false 0) 1 missingSys = some (s2, .ok localComponent) ∧
      (bundledHost false 0).dir localComponent = localDir ∧
      contains (getenv pathVar s2) localDir = false ∧
      getenv envLoaderDirKey s2 = [] ∧
      readFile "/srv/app/.env".toList s2 = some []) :=
  ⟨⟨Outcome.state (findEnvLoader workingHost 1 (workingSys "A=1".toList []))
      (workingSys [] []), by decide, by decide, by decide, by decide⟩,
   ⟨Outcome.state (findEnvLoader (bundledHost false 0) 1 missingSys) missingSys,
      by decide, by decide, by decide, by decide, by decide⟩⟩

/-- C7, amended: whenever `findEnvLoader` returns a path without error, one of
three holds.  Bare-name tier: the path is what `exec.LookPath` gave for the
bare name, and the state is the one `aspnmy_envloader ver` left, nothing being
recorded.  Local tier: the path is the local candidate; its directory occurred
in `PATH` after `updateSystemPath`; `UpdateEnvironmentVariable` then wrote the
configuration file with `aspnmy_envloaderDir=<directory>` as its content for
that key and reloaded without error; and on return `aspnmy_envloaderDir` reads
back as the directory.  Self-repair tier: the path is the local candidate and
the last two processes spawned are the script and the re-check of the
candidate. -/
theorem returned_path_tiers (h : Host) (depth : Nat) (s s3 : Sys) (p : Str)
    (hf : findEnvLoader h (depth + 1) s = some (s3, .ok p)) :
    ((verifyEnvLoaderName h envLoaderName s).2 = none ∧
      h.lookPath envLoaderName (verifyEnvLoaderName h envLoaderName s).1 = some p ∧
      s3 = (verifyEnvLoaderName h envLoaderName s).1) ∨
    (∃ filename, h.caller = some filename ∧ p = h.join (h.dir filename) localPath ∧
      ((∃ u content s1, contains (getenv pathVar u) (h.dir p) = true ∧
          readFile (envFilePath h u) u = some content ∧
          writeFile (envFilePath h u) (updatedContent envLoaderDirKey (h.dir p) content) u
            = some s1 ∧
          ReloadEnv h depth s1 = some (s3, none) ∧
          getenv envLoaderDirKey s3 = h.dir p) ∨
       (∃ s2 : Sys, s3.spawned
          = s2.spawned ++ [[bashName, h.join (h.dir filename) updateScriptPath],
              [p, verArg]]))) := by
  have hstep : findEnvLoader h (depth + 1) s
      = findEnvLoaderStep (findEnvLoader h depth) h s := rfl
  rw [hstep] at hf
  unfold findEnvLoaderStep at hf
  cases hlook : (if (verifyEnvLoaderName h envLoaderName s).2 = none
      then h.lookPath envLoaderName (verifyEnvLoaderName h envLoaderName s).1
      else none) with
  | some path =>
    simp only [hlook, Option.some.injEq, Prod.mk.injEq, Except.ok.injEq] at hf
    left
    by_cases hn : (verifyEnvLoaderName h envLoaderName s).2 = none
    · rw [if_pos hn] at hlook
      exact ⟨hn, by rw [hlook, hf.2], hf.1.symm⟩
    · rw [if_neg hn] at hlook
      exact absurd hlook (by simp)
  | none =>
    right
    cases hcaller : h.caller with
    | none => simp [hlook, hcaller] at hf
    | some filename =>
      refine ⟨filename, rfl, ?_⟩
      cases hlocal : findEnvLoaderLocal (findEnvLoader h depth) h
          (h.join (h.dir filename) localPath) (verifyEnvLoaderName h envLoaderName s).1 with
      | none => simp [hlook, hcaller, hlocal] at hf
      | some r =>
        obtain ⟨s2, flag⟩ := r
        cases flag with
        | true =>
          simp only [hlook, hcaller, hlocal, Option.some.injEq, Prod.mk.injEq,
            Except.ok.injEq] at hf
          obtain ⟨hs, hp⟩ := hf
          subst hs
          refine ⟨hp.symm, Or.inl ?_⟩
          obtain ⟨_, _, hu, hup⟩ := findEnvLoaderLocal_true _ h _ _ _ hlocal
          obtain ⟨content, s1, hr, hw, hre, hg⟩ :=
            UpdateEnvironmentVariableVia_ok (findEnvLoader h depth) h _ _ _ _ hup
          rw [← hp]
          exact ⟨_, content, s1, contains_of_updateSystemPath _ _ hu, hr, hw, hre, hg⟩
        | false =>
          simp only [hlook, hcaller, hlocal, Option.some.injEq] at hf
          obtain ⟨hp, _, _, hs3⟩ := findEnvLoaderRepair_ok h _ _ p s2 s3 hf
          refine ⟨hp, Or.inr ⟨s2, ?_⟩⟩
          rw [hs3, verifyEnvLoaderComponent_spawned, hp]
          simp [spawn]

/-- Witness of the amended C7: the local tier on the bundled machine before
first use, where `aspnmy_envloaderDir` reads back as `/opt/pkg/env_loader`. -/
theorem returned_path_tiers_witness :
    ((verifyEnvLoaderName (bundledHost false 0) envLoaderName freshSys).2 = none ∧
      (bundledHost false 0).lookPath envLoaderName
        (verifyEnvLoaderName (bundledHost false 0) envLoaderName freshSys).1
        = some localComponent ∧
      Outcome.state (findEnvLoader (bundledHost false 0) 2 freshSys) freshSys
        = (verifyEnvLoaderName (bundledHost false 0) envLoaderName freshSys).1) ∨
    (∃ filename, (bundledHost false 0).caller = some filename ∧
      localComponent = (bundledHost false 0).join ((bundledHost false 0).dir filename)
        localPath ∧
      ((∃ u content s1,
          contains (getenv pathVar u) ((bundledHost false 0).dir localComponent) = true ∧
          readFile (envFilePath (bundledHost false 0) u) u = some content ∧
          writeFile (envFilePath (bundledHost false 0) u)
            (updatedContent envLoaderDirKey ((bundledHost false 0).dir localComponent)
              content) u = some s1 ∧
          ReloadEnv (bundledHost false 0) 1 s1
            = some (Outcome.state (findEnvLoader (bundledHost false 0) 2 freshSys) freshSys,
              none) ∧
          getenv envLoaderDirKey
            (Outcome.state (findEnvLoader (bundledHost false 0) 2 freshSys) freshSys)
            = (bundledHost false 0).dir localComponent) ∨
       (∃ s2 : Sys, (Outcome.state (findEnvLoader (bundledHost false 0) 2 freshSys)
            freshSys).spawned
          = s2.spawned ++ [[bashName,
              (bundledHost false 0).join ((bundledHost false 0).dir filename)
                updateScriptPath],
              [localComponent, verArg]]))) :=
  returned_path_tiers (bundledHost false 0) 1 freshSys
    (Outcome.state (findEnvLoader (bundledHost false 0) 2 freshSys) freshSys)
    localComponent (by decide)

/-! ## The locator: nesting -/

theorem shadow_exec_bare (s : Sys) :
    (bundledHost true 0).exec [envLoaderName, verArg] s = (s, .exited 0 []) := by
  have h1 : ¬ [envLoaderName, verArg] = [localComponent, verArg] := by decide
  have h2 : ¬ [envLoaderName, verArg] = [localComponent, reloadArg] := by decide
  simp only [bundledHost, if_true, if_neg h1, if_neg h2]

theorem shadow_exec_local (s : Sys) (hs : stat localComponent s = true) :
    (bundledHost true 0).exec [localComponent, verArg] s
      = (s, .exited 0 "1.0.0\n".toList) := by
  simp only [bundledHost, if_true, hs]

theorem shadowLoop_spawned (s : Sys) (cmds : List (List Str)) (hs : ShadowLoop s) :
    ShadowLoop { s with spawned := cmds } := hs

theorem shadowLoop_updateSystemPath (s : Sys) (hs : ShadowLoop s) :
    (updateSystemPath localDir s).2 = none ∧ ShadowLoop (updateSystemPath localDir s).1 := by
  obtain ⟨h1, h2, h3, h4, h5⟩ := hs
  have hset : setenv pathVar (getenv pathVar s ++ ':' :: localDir) s
      = some { s with env := (pathVar, getenv pathVar s ++ ':' :: localDir) :: s.env } := by
    unfold setenv
    rw [if_neg]
    simp only [List.mem_append, List.mem_cons, not_or]
    exact ⟨by decide, by decide, by decide, h5, by decide, by decide⟩
  rcases updateSystemPath_cases localDir s with ⟨_, he⟩ | ⟨_, hn, _⟩ | ⟨_, s1, hs1, he⟩
  · rw [he]; exact ⟨rfl, h1, h2, h3, h4, h5⟩
  · rw [hset] at hn; exact absurd hn (by simp)
  · rw [he]
    rw [hset] at hs1
    simp only [Option.some.injEq] at hs1
    subst hs1
    refine ⟨rfl, h1, h2, h3, ?_, ?_⟩
    · have hne : (baseDirVar == pathVar) = false := by decide
      simpa [getenv, List.lookup, hne] using h4
    · simp only [getenv, List.lookup, beq_self_eq_true, Option.getD_some, List.mem_append,
        List.mem_cons, not_or]
      exact ⟨h5, by decide, by decide⟩

/-- One activation of `findEnvLoader` on the shadowed machine does not return
when the nested one does not. -/
theorem shadow_step (find : Sys → Outcome (Except Err Str))
    (hfind : ∀ s, ShadowLoop s → find s = none) (s : Sys) (hs : ShadowLoop s) :
    findEnvLoaderStep find (bundledHost true 0) s = none := by
  have hv : verifyEnvLoaderName (bundledHost true 0) envLoaderName s
      = ({ s with spawned := s.spawned ++ [[envLoaderName, verArg]] }, some .noVersion) := by
    simp [verifyEnvLoaderName, spawn, shadow_exec_bare, ExecResult.succeeded,
      ExecResult.output]
  have hs1 : ShadowLoop { s with spawned := s.spawned ++ [[envLoaderName, verArg]] } :=
    shadowLoop_spawned s _ hs
  generalize ({ s with spawned := s.spawned ++ [[envLoaderName, verArg]] } : Sys) = t at hv hs1
  have hc : verifyEnvLoaderComponent (bundledHost true 0) localComponent t
      = ({ t with spawned := t.spawned ++ [[localComponent, verArg]] }, none) := by
    simp [verifyEnvLoaderComponent, spawn, shadow_exec_local t hs1.1, ExecResult.succeeded,
      ExecResult.output]
  have hs2 : ShadowLoop { t with spawned := t.spawned ++ [[localComponent, verArg]] } :=
    shadowLoop_spawned t _ hs1
  generalize ({ t with spawned := t.spawned ++ [[localComponent, verArg]] } : Sys) = t2
    at hc hs2
  obtain ⟨hu, hs3⟩ := shadowLoop_updateSystemPath t2 hs2
  generalize hu1 : (updateSystemPath localDir t2).1 = u1 at hs3
  have hpath : envFilePath (bundledHost true 0) u1 = "/srv/app/.env".toList := by
    simp only [envFilePath, hs3.2.2.2.1]
    decide
  obtain ⟨content, hcontent⟩ := Option.isSome_iff_exists.mp hs3.2.1
  have hupd : UpdateEnvironmentVariableVia find (bundledHost true 0) envLoaderDirKey localDir u1
      = none := by
    have hl : envFilePath (bundledHost true 0) u1 ∉ u1.locked := by
      rw [hpath]; exact hs3.2.2.1
    rw [UpdateEnvironmentVariableVia_of_read find _ _ _ content u1
      (by rw [hpath]; exact hcontent) hl]
    have hs4 : ShadowLoop { u1 with files := (envFilePath (bundledHost true 0) u1,
        updatedContent envLoaderDirKey localDir content) :: u1.files } := by
      rw [hpath]
      obtain ⟨h1, h2, h3, h4, h5⟩ := hs3
      refine ⟨?_, ?_, h3, h4, h5⟩
      · have hne : (localComponent == "/srv/app/.env".toList) = false := by decide
        have he : stat localComponent { u1 with files := ("/srv/app/.env".toList,
            updatedContent envLoaderDirKey localDir content) :: u1.files }
            = stat localComponent u1 := by
          simp only [stat, List.lookup, hne]
        rw [he]; exact h1
      · simp [readFile, List.lookup]
    simp [confirmUpdate, ReloadEnvVia, ExecEnvLoaderVia, hfind _ hs4]
  have hdir : (bundledHost true 0).dir "/opt/pkg/envmanager.go".toList = "/opt/pkg".toList := by
    decide
  have hjoin : (bundledHost true 0).join "/opt/pkg".toList localPath = localComponent := by
    decide
  have hdir2 : (bundledHost true 0).dir localComponent = localDir := by decide
  have hcaller : (bundledHost true 0).caller = some "/opt/pkg/envmanager.go".toList := rfl
  simp only [findEnvLoaderStep, hv, hcaller, hdir, hjoin, findEnvLoaderLocal, hs1.1, hc,
    hdir2]
  simp [hu, hu1, hupd]

/-- C10 fails on the code: on the shadowed bundled machine, where an
executable that prints nothing comes first on the search path, the local copy
verifies and the configuration file can be rewritten, `findEnvLoader` does not
return within any number of nested activations of itself: each activation
reaches `UpdateEnvironmentVariable`, `ReloadEnv`, `ExecEnvLoader` and through
them the next activation. -/
theorem findEnvLoader_nests_without_bound :
    ∀ depth, findEnvLoader (bundledHost true 0) depth shadowSys = none := by
  have hall : ∀ depth s, ShadowLoop s → findEnvLoader (bundledHost true 0) depth s = none := by
    intro depth
    induction depth with
    | zero => intro s _; rfl
    | succ n ih => intro s hs; exact shadow_step _ ih s hs
  intro depth
  exact hall depth shadowSys (by unfold ShadowLoop; decide)

end EnvManager
